import Mathlib

/-!
# Verification of the BLS12-381 G2 hash-to-curve implementation

This development embeds the `bls12_381_g2hash.rs` module of the
`curve_arithmetic` crate: the message expansion (`expand_message_xmd`),
field mapping (`hash_to_field_fq2`), the simplified SWU map (`sswu`),
the 3-isogeny evaluation (`iso_map`), the sign function (`sgn0`) and the
point encoding performed by `from_coordinates_unchecked`.

The base field `Fq` is `ZMod blsP` for the BLS12-381 base prime `blsP`,
and the quadratic extension `Fq2` is the pair type with `i² = -1`,
matching the `pairing` crate's `Fq2` representation (`c0 + c1·i`).
Field inversion and square-root testing are external collaborators in the
source; they are modelled executably by Fermat exponentiation and the
Euler criterion, which agree with the library functions on a prime field.
-/

set_option maxRecDepth 100000

/-- Fuel-driven modular exponentiation by repeated squaring.  It is used
both to evaluate the huge exponentiations appearing in primality and
quadratic-residue certificates inside the kernel, and to model the field
inversion supplied by the external field library. -/
def powMod : ℕ → ℕ → ℕ → ℕ → ℕ
  | 0, _b, _e, m => 1 % m
  | f+1, b, e, m =>
    if e = 0 then 1 % m
    else
      let r := powMod f (b * b % m) (e / 2) m
      if e % 2 = 0 then r else r * b % m

theorem powMod_eq : ∀ (f b e m : ℕ), 0 < m → e < 2 ^ f → powMod f b e m = b ^ e % m := by
  intro f
  induction f with
  | zero =>
    intro b e m hm he
    have h0 : e = 0 := by omega
    subst h0
    simp [powMod]
  | succ f ih =>
    intro b e m hm he
    by_cases he0 : e = 0
    · subst he0; simp [powMod]
    · have h2 : 2 ^ (f + 1) = 2 * 2 ^ f := by rw [pow_succ]; ring
      have hlt : e / 2 < 2 ^ f := by omega
      have hr := ih (b * b % m) (e / 2) m hm hlt
      have hbb : (b * b % m) ^ (e / 2) % m = (b * b) ^ (e / 2) % m :=
        (Nat.pow_mod (b * b) (e / 2) m).symm
      rcases Nat.mod_two_eq_zero_or_one e with h1 | h1
      · have hiteq : powMod (f + 1) b e m = powMod f (b * b % m) (e / 2) m := by
          simp [powMod, he0, h1]
        rw [hiteq, hr, hbb]
        congr 1
        rw [← pow_two, ← pow_mul]
        congr 1
        omega
      · have hiteq : powMod (f + 1) b e m = powMod f (b * b % m) (e / 2) m * b % m := by
          simp [powMod, he0, h1]
        rw [hiteq, hr, hbb, Nat.mod_mul_mod]
        have hpow : (b * b) ^ (e / 2) * b = b ^ e := by
          rw [← pow_two, ← pow_mul, ← pow_succ]
          congr 1
          omega
        rw [hpow]

theorem powMod_lt : ∀ (f b e m : ℕ), 0 < m → powMod f b e m < m := by
  intro f
  induction f with
  | zero => intro b e m hm; simpa [powMod] using Nat.mod_lt _ hm
  | succ f ih =>
    intro b e m hm
    by_cases he0 : e = 0
    · simpa [powMod, he0] using Nat.mod_lt _ hm
    · rcases Nat.mod_two_eq_zero_or_one e with h1 | h1
      · simpa [powMod, he0, h1] using ih (b * b % m) (e / 2) m hm
      · simpa [powMod, he0, h1] using Nat.mod_lt _ hm

/-- Transport a `powMod` kernel computation to a `ZMod` power. -/
theorem zmodPow_eq_powMod (N b e : ℕ) (hN : 0 < N) (he : e < 2 ^ 512) :
    (b : ZMod N) ^ e = ((powMod 512 b e N : ℕ) : ZMod N) := by
  rw [powMod_eq 512 b e N hN he, ← Nat.cast_pow]
  exact (ZMod.natCast_mod (b ^ e) N).symm

theorem zmod_powMod_ne_one (N b e : ℕ) (hN : 1 < N) (he : e < 2 ^ 512)
    (hv : powMod 512 b e N ≠ 1) : (b : ZMod N) ^ e ≠ 1 := by
  rw [zmodPow_eq_powMod N b e (by omega) he]
  intro hcast
  apply hv
  have hlt : powMod 512 b e N < N := powMod_lt 512 b e N (by omega)
  have h1 : ((1 : ℕ) : ZMod N) = 1 := Nat.cast_one
  rw [← h1] at hcast
  have := (ZMod.natCast_eq_natCast_iff' _ _ _).mp hcast
  rwa [Nat.mod_eq_of_lt hlt, Nat.mod_eq_of_lt hN] at this

theorem zmod_powMod_eq_one (N b e : ℕ) (hN : 0 < N) (he : e < 2 ^ 512)
    (hv : powMod 512 b e N = 1) : (b : ZMod N) ^ e = 1 := by
  rw [zmodPow_eq_powMod N b e hN he, hv, Nat.cast_one]

/-- Pratt/Lucas-style primality from a complete list of prime factors of
`N - 1` together with a primitive-root witness. -/
theorem lucas_cert (N a : ℕ) (Q : List ℕ)
    (hdvd : ∀ q : ℕ, q.Prime → q ∣ N - 1 → q ∈ Q)
    (hpow : (a : ZMod N) ^ (N - 1) = 1)
    (hne : ∀ q ∈ Q, (a : ZMod N) ^ ((N - 1) / q) ≠ 1) : N.Prime :=
  lucas_primality N a hpow (fun q hq hdv => hne q (hdvd q hq hdv) )

theorem prime_dvd_mul_pow {q b e m : ℕ} (hq : q.Prime) (hb : b.Prime)
    (h : q ∣ b ^ e * m) : q = b ∨ q ∣ m := by
  rcases (Nat.Prime.dvd_mul hq).mp h with h' | h'
  · exact Or.inl ((Nat.prime_dvd_prime_iff_eq hq hb).mp (hq.dvd_of_dvd_pow h'))
  · exact Or.inr h'

/-- The BLS12-381 base-field prime (the modulus of `Fq` in the `pairing`
crate). -/
def blsP : ℕ := 4002409555221667393417789825735904156556882819939007885332058136124031650490837864442687629129015664037894272559787

/-- The base field of BLS12-381, `Fq` of the `pairing` crate. -/
abbrev Fq : Type := ZMod blsP

/-- The quadratic extension field `Fq2 = Fq[i]/(i² + 1)`: the `c0 + c1·i`
pair representation of the `pairing` crate. -/
structure Fq2 : Type where
  c0 : Fq
  c1 : Fq
deriving DecidableEq

theorem Fq2.ext_c {x y : Fq2} (h0 : x.c0 = y.c0) (h1 : x.c1 = y.c1) : x = y := by
  cases x; cases y; cases h0; cases h1; rfl

instance : Zero Fq2 := ⟨⟨0, 0⟩⟩

instance : One Fq2 := ⟨⟨1, 0⟩⟩

instance : Add Fq2 := ⟨fun x y => ⟨x.c0 + y.c0, x.c1 + y.c1⟩⟩

instance : Neg Fq2 := ⟨fun x => ⟨-x.c0, -x.c1⟩⟩

instance : Sub Fq2 := ⟨fun x y => x + -y⟩

/-- Multiplication in `Fq2` with non-residue `i² = -1`:
`(a+bi)(c+di) = (ac - bd) + (ad + bc)i`. -/
instance : Mul Fq2 := ⟨fun x y => ⟨x.c0 * y.c0 - x.c1 * y.c1, x.c0 * y.c1 + x.c1 * y.c0⟩⟩

theorem Fq2.zero_def : (0 : Fq2) = ⟨0, 0⟩ := rfl

theorem Fq2.one_def : (1 : Fq2) = ⟨1, 0⟩ := rfl

theorem Fq2.add_def (x y : Fq2) : x + y = ⟨x.c0 + y.c0, x.c1 + y.c1⟩ := rfl

theorem Fq2.neg_def (x : Fq2) : -x = ⟨-x.c0, -x.c1⟩ := rfl

theorem Fq2.sub_def (x y : Fq2) : x - y = x + -y := rfl

theorem Fq2.mul_def (x y : Fq2) :
    x * y = ⟨x.c0 * y.c0 - x.c1 * y.c1, x.c0 * y.c1 + x.c1 * y.c0⟩ := rfl

instance : CommRing Fq2 where
  add_assoc a b c := by
    apply Fq2.ext_c <;> simp [Fq2.add_def] <;> ring
  zero_add a := by
    apply Fq2.ext_c <;> simp [Fq2.add_def, Fq2.zero_def]
  add_zero a := by
    apply Fq2.ext_c <;> simp [Fq2.add_def, Fq2.zero_def]
  add_comm a b := by
    apply Fq2.ext_c <;> simp [Fq2.add_def] <;> ring
  mul_assoc a b c := by
    apply Fq2.ext_c <;> simp [Fq2.mul_def] <;> ring
  one_mul a := by
    apply Fq2.ext_c <;> simp [Fq2.mul_def, Fq2.one_def]
  mul_one a := by
    apply Fq2.ext_c <;> simp [Fq2.mul_def, Fq2.one_def]
  left_distrib a b c := by
    apply Fq2.ext_c <;> simp [Fq2.mul_def, Fq2.add_def] <;> ring
  right_distrib a b c := by
    apply Fq2.ext_c <;> simp [Fq2.mul_def, Fq2.add_def] <;> ring
  mul_comm a b := by
    apply Fq2.ext_c <;> simp [Fq2.mul_def] <;> ring
  zero_mul a := by
    apply Fq2.ext_c <;> simp [Fq2.mul_def, Fq2.zero_def]
  mul_zero a := by
    apply Fq2.ext_c <;> simp [Fq2.mul_def, Fq2.zero_def]
  neg_add_cancel a := by
    apply Fq2.ext_c <;> simp [Fq2.add_def, Fq2.neg_def, Fq2.zero_def]
  sub_eq_add_neg a b := rfl
  nsmul := nsmulRec
  zsmul := zsmulRec

theorem Fq2.c0_add (x y : Fq2) : (x + y).c0 = x.c0 + y.c0 := rfl

theorem Fq2.c1_add (x y : Fq2) : (x + y).c1 = x.c1 + y.c1 := rfl

theorem Fq2.c0_mul (x y : Fq2) : (x * y).c0 = x.c0 * y.c0 - x.c1 * y.c1 := rfl

theorem Fq2.c1_mul (x y : Fq2) : (x * y).c1 = x.c0 * y.c1 + x.c1 * y.c0 := rfl
theorem prime_2 : Nat.Prime 2 := by norm_num

theorem prime_3 : Nat.Prime 3 := by norm_num

theorem prime_5 : Nat.Prime 5 := by norm_num

theorem prime_7 : Nat.Prime 7 := by norm_num

theorem prime_11 : Nat.Prime 11 := by norm_num

theorem prime_13 : Nat.Prime 13 := by norm_num

theorem prime_17 : Nat.Prime 17 := by norm_num

theorem prime_19 : Nat.Prime 19 := by norm_num

theorem prime_23 : Nat.Prime 23 := by norm_num

theorem prime_31 : Nat.Prime 31 := by norm_num

theorem prime_41 : Nat.Prime 41 := by norm_num

theorem prime_43 : Nat.Prime 43 := by norm_num

theorem prime_47 : Nat.Prime 47 := by norm_num

theorem prime_53 : Nat.Prime 53 := by norm_num

theorem prime_67 : Nat.Prime 67 := by norm_num

theorem prime_89 : Nat.Prime 89 := by norm_num

theorem prime_97 : Nat.Prime 97 := by norm_num

theorem prime_113 : Nat.Prime 113 := by norm_num

theorem prime_137 : Nat.Prime 137 := by norm_num

theorem prime_151 : Nat.Prime 151 := by norm_num

theorem prime_181 : Nat.Prime 181 := by norm_num

theorem prime_191 : Nat.Prime 191 := by norm_num

theorem prime_281 : Nat.Prime 281 := by norm_num

theorem prime_409 : Nat.Prime 409 := by norm_num

theorem prime_449 : Nat.Prime 449 := by norm_num

theorem prime_467 : Nat.Prime 467 := by norm_num

theorem prime_941 : Nat.Prime 941 := by norm_num

theorem prime_947 : Nat.Prime 947 := by norm_num

theorem prime_1087 : Nat.Prime 1087 := by
  apply lucas_cert 1087 3 [2, 3, 181]
  · intro q hq hdv
    have hfac : 1087 - 1 = 2 ^ 1 * (3 ^ 1 * (181 ^ 1 * (1))) := by norm_num
    rw [hfac] at hdv
    rcases prime_dvd_mul_pow hq prime_2 hdv with rfl | hdv
    · simp
    rcases prime_dvd_mul_pow hq prime_3 hdv with rfl | hdv
    · simp
    rcases prime_dvd_mul_pow hq prime_181 hdv with rfl | hdv
    · simp
    exact absurd (Nat.dvd_one.mp hdv) hq.ne_one
  · apply zmod_powMod_eq_one
    · norm_num
    · decide
    · decide
  · intro q hq
    simp only [List.mem_cons, List.not_mem_nil, or_false] at hq
    rcases hq with rfl | rfl | rfl
    · exact zmod_powMod_ne_one _ _ _ (by norm_num) (by decide) (by decide)
    · exact zmod_powMod_ne_one _ _ _ (by norm_num) (by decide) (by decide)
    · exact zmod_powMod_ne_one _ _ _ (by norm_num) (by decide) (by decide)

theorem prime_1151 : Nat.Prime 1151 := by
  apply lucas_cert 1151 17 [2, 5, 23]
  · intro q hq hdv
    have hfac : 1151 - 1 = 2 ^ 1 * (5 ^ 2 * (23 ^ 1 * (1))) := by norm_num
    rw [hfac] at hdv
    rcases prime_dvd_mul_pow hq prime_2 hdv with rfl | hdv
    · simp
    rcases prime_dvd_mul_pow hq prime_5 hdv with rfl | hdv
    · simp
    rcases prime_dvd_mul_pow hq prime_23 hdv with rfl | hdv
    · simp
    exact absurd (Nat.dvd_one.mp hdv) hq.ne_one
  · apply zmod_powMod_eq_one
    · norm_num
    · decide
    · decide
  · intro q hq
    simp only [List.mem_cons, List.not_mem_nil, or_false] at hq
    rcases hq with rfl | rfl | rfl
    · exact zmod_powMod_ne_one _ _ _ (by norm_num) (by decide) (by decide)
    · exact zmod_powMod_ne_one _ _ _ (by norm_num) (by decide) (by decide)
    · exact zmod_powMod_ne_one _ _ _ (by norm_num) (by decide) (by decide)

theorem prime_1327 : Nat.Prime 1327 := by
  apply lucas_cert 1327 3 [2, 3, 13, 17]
  · intro q hq hdv
    have hfac : 1327 - 1 = 2 ^ 1 * (3 ^ 1 * (13 ^ 1 * (17 ^ 1 * (1)))) := by norm_num
    rw [hfac] at hdv
    rcases prime_dvd_mul_pow hq prime_2 hdv with rfl | hdv
    · simp
    rcases prime_dvd_mul_pow hq prime_3 hdv with rfl | hdv
    · simp
    rcases prime_dvd_mul_pow hq prime_13 hdv with rfl | hdv
    · simp
    rcases prime_dvd_mul_pow hq prime_17 hdv with rfl | hdv
    · simp
    exact absurd (Nat.dvd_one.mp hdv) hq.ne_one
  · apply zmod_powMod_eq_one
    · norm_num
    · decide
    · decide
  · intro q hq
    simp only [List.mem_cons, List.not_mem_nil, or_false] at hq
    rcases hq with rfl | rfl | rfl | rfl
    · exact zmod_powMod_ne_one _ _ _ (by norm_num) (by decide) (by decide)
    · exact zmod_powMod_ne_one _ _ _ (by norm_num) (by decide) (by decide)
    · exact zmod_powMod_ne_one _ _ _ (by norm_num) (by decide) (by decide)
    · exact zmod_powMod_ne_one _ _ _ (by norm_num) (by decide) (by decide)

theorem prime_1453 : Nat.Prime 1453 := by
  apply lucas_cert 1453 2 [2, 3, 11]
  · intro q hq hdv
    have hfac : 1453 - 1 = 2 ^ 2 * (3 ^ 1 * (11 ^ 2 * (1))) := by norm_num
    rw [hfac] at hdv
    rcases prime_dvd_mul_pow hq prime_2 hdv with rfl | hdv
    · simp
    rcases prime_dvd_mul_pow hq prime_3 hdv with rfl | hdv
    · simp
    rcases prime_dvd_mul_pow hq prime_11 hdv with rfl | hdv
    · simp
    exact absurd (Nat.dvd_one.mp hdv) hq.ne_one
  · apply zmod_powMod_eq_one
    · norm_num
    · decide
    · decide
  · intro q hq
    simp only [List.mem_cons, List.not_mem_nil, or_false] at hq
    rcases hq with rfl | rfl | rfl
    · exact zmod_powMod_ne_one _ _ _ (by norm_num) (by decide) (by decide)
    · exact zmod_powMod_ne_one _ _ _ (by norm_num) (by decide) (by decide)
    · exact zmod_powMod_ne_one _ _ _ (by norm_num) (by decide) (by decide)

theorem prime_2741 : Nat.Prime 2741 := by
  apply lucas_cert 2741 2 [2, 5, 137]
  · intro q hq hdv
    have hfac : 2741 - 1 = 2 ^ 2 * (5 ^ 1 * (137 ^ 1 * (1))) := by norm_num
    rw [hfac] at hdv
    rcases prime_dvd_mul_pow hq prime_2 hdv with rfl | hdv
    · simp
    rcases prime_dvd_mul_pow hq prime_5 hdv with rfl | hdv
    · simp
    rcases prime_dvd_mul_pow hq prime_137 hdv with rfl | hdv
    · simp
    exact absurd (Nat.dvd_one.mp hdv) hq.ne_one
  · apply zmod_powMod_eq_one
    · norm_num
    · decide
    · decide
  · intro q hq
    simp only [List.mem_cons, List.not_mem_nil, or_false] at hq
    rcases hq with rfl | rfl | rfl
    · exact zmod_powMod_ne_one _ _ _ (by norm_num) (by decide) (by decide)
    · exact zmod_powMod_ne_one _ _ _ (by norm_num) (by decide) (by decide)
    · exact zmod_powMod_ne_one _ _ _ (by norm_num) (by decide) (by decide)

theorem prime_3373 : Nat.Prime 3373 := by
  apply lucas_cert 3373 5 [2, 3, 281]
  · intro q hq hdv
    have hfac : 3373 - 1 = 2 ^ 2 * (3 ^ 1 * (281 ^ 1 * (1))) := by norm_num
    rw [hfac] at hdv
    rcases prime_dvd_mul_pow hq prime_2 hdv with rfl | hdv
    · simp
    rcases prime_dvd_mul_pow hq prime_3 hdv with rfl | hdv
    · simp
    rcases prime_dvd_mul_pow hq prime_281 hdv with rfl | hdv
    · simp
    exact absurd (Nat.dvd_one.mp hdv) hq.ne_one
  · apply zmod_powMod_eq_one
    · norm_num
    · decide
    · decide
  · intro q hq
    simp only [List.mem_cons, List.not_mem_nil, or_false] at hq
    rcases hq with rfl | rfl | rfl
    · exact zmod_powMod_ne_one _ _ _ (by norm_num) (by decide) (by decide)
    · exact zmod_powMod_ne_one _ _ _ (by norm_num) (by decide) (by decide)
    · exact zmod_powMod_ne_one _ _ _ (by norm_num) (by decide) (by decide)

theorem prime_4349 : Nat.Prime 4349 := by
  apply lucas_cert 4349 2 [2, 1087]
  · intro q hq hdv
    have hfac : 4349 - 1 = 2 ^ 2 * (1087 ^ 1 * (1)) := by norm_num
    rw [hfac] at hdv
    rcases prime_dvd_mul_pow hq prime_2 hdv with rfl | hdv
    · simp
    rcases prime_dvd_mul_pow hq prime_1087 hdv with rfl | hdv
    · simp
    exact absurd (Nat.dvd_one.mp hdv) hq.ne_one
  · apply zmod_powMod_eq_one
    · norm_num
    · decide
    · decide
  · intro q hq
    simp only [List.mem_cons, List.not_mem_nil, or_false] at hq
    rcases hq with rfl | rfl
    · exact zmod_powMod_ne_one _ _ _ (by norm_num) (by decide) (by decide)
    · exact zmod_powMod_ne_one _ _ _ (by norm_num) (by decide) (by decide)

theorem prime_7577 : Nat.Prime 7577 := by
  apply lucas_cert 7577 3 [2, 947]
  · intro q hq hdv
    have hfac : 7577 - 1 = 2 ^ 3 * (947 ^ 1 * (1)) := by norm_num
    rw [hfac] at hdv
    rcases prime_dvd_mul_pow hq prime_2 hdv with rfl | hdv
    · simp
    rcases prime_dvd_mul_pow hq prime_947 hdv with rfl | hdv
    · simp
    exact absurd (Nat.dvd_one.mp hdv) hq.ne_one
  · apply zmod_powMod_eq_one
    · norm_num
    · decide
    · decide
  · intro q hq
    simp only [List.mem_cons, List.not_mem_nil, or_false] at hq
    rcases hq with rfl | rfl
    · exact zmod_powMod_ne_one _ _ _ (by norm_num) (by decide) (by decide)
    · exact zmod_powMod_ne_one _ _ _ (by norm_num) (by decide) (by decide)

theorem prime_8101 : Nat.Prime 8101 := by
  apply lucas_cert 8101 6 [2, 3, 5]
  · intro q hq hdv
    have hfac : 8101 - 1 = 2 ^ 2 * (3 ^ 4 * (5 ^ 2 * (1))) := by norm_num
    rw [hfac] at hdv
    rcases prime_dvd_mul_pow hq prime_2 hdv with rfl | hdv
    · simp
    rcases prime_dvd_mul_pow hq prime_3 hdv with rfl | hdv
    · simp
    rcases prime_dvd_mul_pow hq prime_5 hdv with rfl | hdv
    · simp
    exact absurd (Nat.dvd_one.mp hdv) hq.ne_one
  · apply zmod_powMod_eq_one
    · norm_num
    · decide
    · decide
  · intro q hq
    simp only [List.mem_cons, List.not_mem_nil, or_false] at hq
    rcases hq with rfl | rfl | rfl
    · exact zmod_powMod_ne_one _ _ _ (by norm_num) (by decide) (by decide)
    · exact zmod_powMod_ne_one _ _ _ (by norm_num) (by decide) (by decide)
    · exact zmod_powMod_ne_one _ _ _ (by norm_num) (by decide) (by decide)

theorem prime_10177 : Nat.Prime 10177 := by
  apply lucas_cert 10177 7 [2, 3, 53]
  · intro q hq hdv
    have hfac : 10177 - 1 = 2 ^ 6 * (3 ^ 1 * (53 ^ 1 * (1))) := by norm_num
    rw [hfac] at hdv
    rcases prime_dvd_mul_pow hq prime_2 hdv with rfl | hdv
    · simp
    rcases prime_dvd_mul_pow hq prime_3 hdv with rfl | hdv
    · simp
    rcases prime_dvd_mul_pow hq prime_53 hdv with rfl | hdv
    · simp
    exact absurd (Nat.dvd_one.mp hdv) hq.ne_one
  · apply zmod_powMod_eq_one
    · norm_num
    · decide
    · decide
  · intro q hq
    simp only [List.mem_cons, List.not_mem_nil, or_false] at hq
    rcases hq with rfl | rfl | rfl
    · exact zmod_powMod_ne_one _ _ _ (by norm_num) (by decide) (by decide)
    · exact zmod_powMod_ne_one _ _ _ (by norm_num) (by decide) (by decide)
    · exact zmod_powMod_ne_one _ _ _ (by norm_num) (by decide) (by decide)

theorem prime_16447 : Nat.Prime 16447 := by
  apply lucas_cert 16447 3 [2, 3, 2741]
  · intro q hq hdv
    have hfac : 16447 - 1 = 2 ^ 1 * (3 ^ 1 * (2741 ^ 1 * (1))) := by norm_num
    rw [hfac] at hdv
    rcases prime_dvd_mul_pow hq prime_2 hdv with rfl | hdv
    · simp
    rcases prime_dvd_mul_pow hq prime_3 hdv with rfl | hdv
    · simp
    rcases prime_dvd_mul_pow hq prime_2741 hdv with rfl | hdv
    · simp
    exact absurd (Nat.dvd_one.mp hdv) hq.ne_one
  · apply zmod_powMod_eq_one
    · norm_num
    · decide
    · decide
  · intro q hq
    simp only [List.mem_cons, List.not_mem_nil, or_false] at hq
    rcases hq with rfl | rfl | rfl
    · exact zmod_powMod_ne_one _ _ _ (by norm_num) (by decide) (by decide)
    · exact zmod_powMod_ne_one _ _ _ (by norm_num) (by decide) (by decide)
    · exact zmod_powMod_ne_one _ _ _ (by norm_num) (by decide) (by decide)

theorem prime_43591 : Nat.Prime 43591 := by
  apply lucas_cert 43591 11 [2, 3, 5, 1453]
  · intro q hq hdv
    have hfac : 43591 - 1 = 2 ^ 1 * (3 ^ 1 * (5 ^ 1 * (1453 ^ 1 * (1)))) := by norm_num
    rw [hfac] at hdv
    rcases prime_dvd_mul_pow hq prime_2 hdv with rfl | hdv
    · simp
    rcases prime_dvd_mul_pow hq prime_3 hdv with rfl | hdv
    · simp
    rcases prime_dvd_mul_pow hq prime_5 hdv with rfl | hdv
    · simp
    rcases prime_dvd_mul_pow hq prime_1453 hdv with rfl | hdv
    · simp
    exact absurd (Nat.dvd_one.mp hdv) hq.ne_one
  · apply zmod_powMod_eq_one
    · norm_num
    · decide
    · decide
  · intro q hq
    simp only [List.mem_cons, List.not_mem_nil, or_false] at hq
    rcases hq with rfl | rfl | rfl | rfl
    · exact zmod_powMod_ne_one _ _ _ (by norm_num) (by decide) (by decide)
    · exact zmod_powMod_ne_one _ _ _ (by norm_num) (by decide) (by decide)
    · exact zmod_powMod_ne_one _ _ _ (by norm_num) (by decide) (by decide)
    · exact zmod_powMod_ne_one _ _ _ (by norm_num) (by decide) (by decide)

theorem prime_47737 : Nat.Prime 47737 := by
  apply lucas_cert 47737 5 [2, 3, 13, 17]
  · intro q hq hdv
    have hfac : 47737 - 1 = 2 ^ 3 * (3 ^ 3 * (13 ^ 1 * (17 ^ 1 * (1)))) := by norm_num
    rw [hfac] at hdv
    rcases prime_dvd_mul_pow hq prime_2 hdv with rfl | hdv
    · simp
    rcases prime_dvd_mul_pow hq prime_3 hdv with rfl | hdv
    · simp
    rcases prime_dvd_mul_pow hq prime_13 hdv with rfl | hdv
    · simp
    rcases prime_dvd_mul_pow hq prime_17 hdv with rfl | hdv
    · simp
    exact absurd (Nat.dvd_one.mp hdv) hq.ne_one
  · apply zmod_powMod_eq_one
    · norm_num
    · decide
    · decide
  · intro q hq
    simp only [List.mem_cons, List.not_mem_nil, or_false] at hq
    rcases hq with rfl | rfl | rfl | rfl
    · exact zmod_powMod_ne_one _ _ _ (by norm_num) (by decide) (by decide)
    · exact zmod_powMod_ne_one _ _ _ (by norm_num) (by decide) (by decide)
    · exact zmod_powMod_ne_one _ _ _ (by norm_num) (by decide) (by decide)
    · exact zmod_powMod_ne_one _ _ _ (by norm_num) (by decide) (by decide)

theorem prime_421987 : Nat.Prime 421987 := by
  apply lucas_cert 421987 2 [2, 3, 53, 1327]
  · intro q hq hdv
    have hfac : 421987 - 1 = 2 ^ 1 * (3 ^ 1 * (53 ^ 1 * (1327 ^ 1 * (1)))) := by norm_num
    rw [hfac] at hdv
    rcases prime_dvd_mul_pow hq prime_2 hdv with rfl | hdv
    · simp
    rcases prime_dvd_mul_pow hq prime_3 hdv with rfl | hdv
    · simp
    rcases prime_dvd_mul_pow hq prime_53 hdv with rfl | hdv
    · simp
    rcases prime_dvd_mul_pow hq prime_1327 hdv with rfl | hdv
    · simp
    exact absurd (Nat.dvd_one.mp hdv) hq.ne_one
  · apply zmod_powMod_eq_one
    · norm_num
    · decide
    · decide
  · intro q hq
    simp only [List.mem_cons, List.not_mem_nil, or_false] at hq
    rcases hq with rfl | rfl | rfl | rfl
    · exact zmod_powMod_ne_one _ _ _ (by norm_num) (by decide) (by decide)
    · exact zmod_powMod_ne_one _ _ _ (by norm_num) (by decide) (by decide)
    · exact zmod_powMod_ne_one _ _ _ (by norm_num) (by decide) (by decide)
    · exact zmod_powMod_ne_one _ _ _ (by norm_num) (by decide) (by decide)

theorem prime_582767 : Nat.Prime 582767 := by
  apply lucas_cert 582767 5 [2, 67, 4349]
  · intro q hq hdv
    have hfac : 582767 - 1 = 2 ^ 1 * (67 ^ 1 * (4349 ^ 1 * (1))) := by norm_num
    rw [hfac] at hdv
    rcases prime_dvd_mul_pow hq prime_2 hdv with rfl | hdv
    · simp
    rcases prime_dvd_mul_pow hq prime_67 hdv with rfl | hdv
    · simp
    rcases prime_dvd_mul_pow hq prime_4349 hdv with rfl | hdv
    · simp
    exact absurd (Nat.dvd_one.mp hdv) hq.ne_one
  · apply zmod_powMod_eq_one
    · norm_num
    · decide
    · decide
  · intro q hq
    simp only [List.mem_cons, List.not_mem_nil, or_false] at hq
    rcases hq with rfl | rfl | rfl
    · exact zmod_powMod_ne_one _ _ _ (by norm_num) (by decide) (by decide)
    · exact zmod_powMod_ne_one _ _ _ (by norm_num) (by decide) (by decide)
    · exact zmod_powMod_ne_one _ _ _ (by norm_num) (by decide) (by decide)

theorem prime_609743 : Nat.Prime 609743 := by
  apply lucas_cert 609743 5 [2, 7, 97, 449]
  · intro q hq hdv
    have hfac : 609743 - 1 = 2 ^ 1 * (7 ^ 1 * (97 ^ 1 * (449 ^ 1 * (1)))) := by norm_num
    rw [hfac] at hdv
    rcases prime_dvd_mul_pow hq prime_2 hdv with rfl | hdv
    · simp
    rcases prime_dvd_mul_pow hq prime_7 hdv with rfl | hdv
    · simp
    rcases prime_dvd_mul_pow hq prime_97 hdv with rfl | hdv
    · simp
    rcases prime_dvd_mul_pow hq prime_449 hdv with rfl | hdv
    · simp
    exact absurd (Nat.dvd_one.mp hdv) hq.ne_one
  · apply zmod_powMod_eq_one
    · norm_num
    · decide
    · decide
  · intro q hq
    simp only [List.mem_cons, List.not_mem_nil, or_false] at hq
    rcases hq with rfl | rfl | rfl | rfl
    · exact zmod_powMod_ne_one _ _ _ (by norm_num) (by decide) (by decide)
    · exact zmod_powMod_ne_one _ _ _ (by norm_num) (by decide) (by decide)
    · exact zmod_powMod_ne_one _ _ _ (by norm_num) (by decide) (by decide)
    · exact zmod_powMod_ne_one _ _ _ (by norm_num) (by decide) (by decide)

theorem prime_755057 : Nat.Prime 755057 := by
  apply lucas_cert 755057 3 [2, 41, 1151]
  · intro q hq hdv
    have hfac : 755057 - 1 = 2 ^ 4 * (41 ^ 1 * (1151 ^ 1 * (1))) := by norm_num
    rw [hfac] at hdv
    rcases prime_dvd_mul_pow hq prime_2 hdv with rfl | hdv
    · simp
    rcases prime_dvd_mul_pow hq prime_41 hdv with rfl | hdv
    · simp
    rcases prime_dvd_mul_pow hq prime_1151 hdv with rfl | hdv
    · simp
    exact absurd (Nat.dvd_one.mp hdv) hq.ne_one
  · apply zmod_powMod_eq_one
    · norm_num
    · decide
    · decide
  · intro q hq
    simp only [List.mem_cons, List.not_mem_nil, or_false] at hq
    rcases hq with rfl | rfl | rfl
    · exact zmod_powMod_ne_one _ _ _ (by norm_num) (by decide) (by decide)
    · exact zmod_powMod_ne_one _ _ _ (by norm_num) (by decide) (by decide)
    · exact zmod_powMod_ne_one _ _ _ (by norm_num) (by decide) (by decide)

theorem prime_859267 : Nat.Prime 859267 := by
  apply lucas_cert 859267 2 [2, 3, 47737]
  · intro q hq hdv
    have hfac : 859267 - 1 = 2 ^ 1 * (3 ^ 2 * (47737 ^ 1 * (1))) := by norm_num
    rw [hfac] at hdv
    rcases prime_dvd_mul_pow hq prime_2 hdv with rfl | hdv
    · simp
    rcases prime_dvd_mul_pow hq prime_3 hdv with rfl | hdv
    · simp
    rcases prime_dvd_mul_pow hq prime_47737 hdv with rfl | hdv
    · simp
    exact absurd (Nat.dvd_one.mp hdv) hq.ne_one
  · apply zmod_powMod_eq_one
    · norm_num
    · decide
    · decide
  · intro q hq
    simp only [List.mem_cons, List.not_mem_nil, or_false] at hq
    rcases hq with rfl | rfl | rfl
    · exact zmod_powMod_ne_one _ _ _ (by norm_num) (by decide) (by decide)
    · exact zmod_powMod_ne_one _ _ _ (by norm_num) (by decide) (by decide)
    · exact zmod_powMod_ne_one _ _ _ (by norm_num) (by decide) (by decide)

theorem prime_1686913 : Nat.Prime 1686913 := by
  apply lucas_cert 1686913 10 [2, 3, 23, 191]
  · intro q hq hdv
    have hfac : 1686913 - 1 = 2 ^ 7 * (3 ^ 1 * (23 ^ 1 * (191 ^ 1 * (1)))) := by norm_num
    rw [hfac] at hdv
    rcases prime_dvd_mul_pow hq prime_2 hdv with rfl | hdv
    · simp
    rcases prime_dvd_mul_pow hq prime_3 hdv with rfl | hdv
    · simp
    rcases prime_dvd_mul_pow hq prime_23 hdv with rfl | hdv
    · simp
    rcases prime_dvd_mul_pow hq prime_191 hdv with rfl | hdv
    · simp
    exact absurd (Nat.dvd_one.mp hdv) hq.ne_one
  · apply zmod_powMod_eq_one
    · norm_num
    · decide
    · decide
  · intro q hq
    simp only [List.mem_cons, List.not_mem_nil, or_false] at hq
    rcases hq with rfl | rfl | rfl | rfl
    · exact zmod_powMod_ne_one _ _ _ (by norm_num) (by decide) (by decide)
    · exact zmod_powMod_ne_one _ _ _ (by norm_num) (by decide) (by decide)
    · exact zmod_powMod_ne_one _ _ _ (by norm_num) (by decide) (by decide)
    · exact zmod_powMod_ne_one _ _ _ (by norm_num) (by decide) (by decide)

theorem prime_51376543 : Nat.Prime 51376543 := by
  apply lucas_cert 51376543 3 [2, 3, 7, 151, 8101]
  · intro q hq hdv
    have hfac : 51376543 - 1 = 2 ^ 1 * (3 ^ 1 * (7 ^ 1 * (151 ^ 1 * (8101 ^ 1 * (1))))) := by norm_num
    rw [hfac] at hdv
    rcases prime_dvd_mul_pow hq prime_2 hdv with rfl | hdv
    · simp
    rcases prime_dvd_mul_pow hq prime_3 hdv with rfl | hdv
    · simp
    rcases prime_dvd_mul_pow hq prime_7 hdv with rfl | hdv
    · simp
    rcases prime_dvd_mul_pow hq prime_151 hdv with rfl | hdv
    · simp
    rcases prime_dvd_mul_pow hq prime_8101 hdv with rfl | hdv
    · simp
    exact absurd (Nat.dvd_one.mp hdv) hq.ne_one
  · apply zmod_powMod_eq_one
    · norm_num
    · decide
    · decide
  · intro q hq
    simp only [List.mem_cons, List.not_mem_nil, or_false] at hq
    rcases hq with rfl | rfl | rfl | rfl | rfl
    · exact zmod_powMod_ne_one _ _ _ (by norm_num) (by decide) (by decide)
    · exact zmod_powMod_ne_one _ _ _ (by norm_num) (by decide) (by decide)
    · exact zmod_powMod_ne_one _ _ _ (by norm_num) (by decide) (by decide)
    · exact zmod_powMod_ne_one _ _ _ (by norm_num) (by decide) (by decide)
    · exact zmod_powMod_ne_one _ _ _ (by norm_num) (by decide) (by decide)

theorem prime_52437899 : Nat.Prime 52437899 := by
  apply lucas_cert 52437899 2 [2, 43, 609743]
  · intro q hq hdv
    have hfac : 52437899 - 1 = 2 ^ 1 * (43 ^ 1 * (609743 ^ 1 * (1))) := by norm_num
    rw [hfac] at hdv
    rcases prime_dvd_mul_pow hq prime_2 hdv with rfl | hdv
    · simp
    rcases prime_dvd_mul_pow hq prime_43 hdv with rfl | hdv
    · simp
    rcases prime_dvd_mul_pow hq prime_609743 hdv with rfl | hdv
    · simp
    exact absurd (Nat.dvd_one.mp hdv) hq.ne_one
  · apply zmod_powMod_eq_one
    · norm_num
    · decide
    · decide
  · intro q hq
    simp only [List.mem_cons, List.not_mem_nil, or_false] at hq
    rcases hq with rfl | rfl | rfl
    · exact zmod_powMod_ne_one _ _ _ (by norm_num) (by decide) (by decide)
    · exact zmod_powMod_ne_one _ _ _ (by norm_num) (by decide) (by decide)
    · exact zmod_powMod_ne_one _ _ _ (by norm_num) (by decide) (by decide)

theorem prime_475709467 : Nat.Prime 475709467 := by
  apply lucas_cert 475709467 2 [2, 3, 47, 1686913]
  · intro q hq hdv
    have hfac : 475709467 - 1 = 2 ^ 1 * (3 ^ 1 * (47 ^ 1 * (1686913 ^ 1 * (1)))) := by norm_num
    rw [hfac] at hdv
    rcases prime_dvd_mul_pow hq prime_2 hdv with rfl | hdv
    · simp
    rcases prime_dvd_mul_pow hq prime_3 hdv with rfl | hdv
    · simp
    rcases prime_dvd_mul_pow hq prime_47 hdv with rfl | hdv
    · simp
    rcases prime_dvd_mul_pow hq prime_1686913 hdv with rfl | hdv
    · simp
    exact absurd (Nat.dvd_one.mp hdv) hq.ne_one
  · apply zmod_powMod_eq_one
    · norm_num
    · decide
    · decide
  · intro q hq
    simp only [List.mem_cons, List.not_mem_nil, or_false] at hq
    rcases hq with rfl | rfl | rfl | rfl
    · exact zmod_powMod_ne_one _ _ _ (by norm_num) (by decide) (by decide)
    · exact zmod_powMod_ne_one _ _ _ (by norm_num) (by decide) (by decide)
    · exact zmod_powMod_ne_one _ _ _ (by norm_num) (by decide) (by decide)
    · exact zmod_powMod_ne_one _ _ _ (by norm_num) (by decide) (by decide)

theorem prime_927093389 : Nat.Prime 927093389 := by
  apply lucas_cert 927093389 3 [2, 13, 409, 43591]
  · intro q hq hdv
    have hfac : 927093389 - 1 = 2 ^ 2 * (13 ^ 1 * (409 ^ 1 * (43591 ^ 1 * (1)))) := by norm_num
    rw [hfac] at hdv
    rcases prime_dvd_mul_pow hq prime_2 hdv with rfl | hdv
    · simp
    rcases prime_dvd_mul_pow hq prime_13 hdv with rfl | hdv
    · simp
    rcases prime_dvd_mul_pow hq prime_409 hdv with rfl | hdv
    · simp
    rcases prime_dvd_mul_pow hq prime_43591 hdv with rfl | hdv
    · simp
    exact absurd (Nat.dvd_one.mp hdv) hq.ne_one
  · apply zmod_powMod_eq_one
    · norm_num
    · decide
    · decide
  · intro q hq
    simp only [List.mem_cons, List.not_mem_nil, or_false] at hq
    rcases hq with rfl | rfl | rfl | rfl
    · exact zmod_powMod_ne_one _ _ _ (by norm_num) (by decide) (by decide)
    · exact zmod_powMod_ne_one _ _ _ (by norm_num) (by decide) (by decide)
    · exact zmod_powMod_ne_one _ _ _ (by norm_num) (by decide) (by decide)
    · exact zmod_powMod_ne_one _ _ _ (by norm_num) (by decide) (by decide)

theorem prime_13090036741 : Nat.Prime 13090036741 := by
  apply lucas_cert 13090036741 10 [2, 3, 5, 11, 47, 421987]
  · intro q hq hdv
    have hfac : 13090036741 - 1 = 2 ^ 2 * (3 ^ 1 * (5 ^ 1 * (11 ^ 1 * (47 ^ 1 * (421987 ^ 1 * (1)))))) := by norm_num
    rw [hfac] at hdv
    rcases prime_dvd_mul_pow hq prime_2 hdv with rfl | hdv
    · simp
    rcases prime_dvd_mul_pow hq prime_3 hdv with rfl | hdv
    · simp
    rcases prime_dvd_mul_pow hq prime_5 hdv with rfl | hdv
    · simp
    rcases prime_dvd_mul_pow hq prime_11 hdv with rfl | hdv
    · simp
    rcases prime_dvd_mul_pow hq prime_47 hdv with rfl | hdv
    · simp
    rcases prime_dvd_mul_pow hq prime_421987 hdv with rfl | hdv
    · simp
    exact absurd (Nat.dvd_one.mp hdv) hq.ne_one
  · apply zmod_powMod_eq_one
    · norm_num
    · decide
    · decide
  · intro q hq
    simp only [List.mem_cons, List.not_mem_nil, or_false] at hq
    rcases hq with rfl | rfl | rfl | rfl | rfl | rfl
    · exact zmod_powMod_ne_one _ _ _ (by norm_num) (by decide) (by decide)
    · exact zmod_powMod_ne_one _ _ _ (by norm_num) (by decide) (by decide)
    · exact zmod_powMod_ne_one _ _ _ (by norm_num) (by decide) (by decide)
    · exact zmod_powMod_ne_one _ _ _ (by norm_num) (by decide) (by decide)
    · exact zmod_powMod_ne_one _ _ _ (by norm_num) (by decide) (by decide)
    · exact zmod_powMod_ne_one _ _ _ (by norm_num) (by decide) (by decide)

theorem prime_43670061551 : Nat.Prime 43670061551 := by
  apply lucas_cert 43670061551 7 [2, 5, 17, 51376543]
  · intro q hq hdv
    have hfac : 43670061551 - 1 = 2 ^ 1 * (5 ^ 2 * (17 ^ 1 * (51376543 ^ 1 * (1)))) := by norm_num
    rw [hfac] at hdv
    rcases prime_dvd_mul_pow hq prime_2 hdv with rfl | hdv
    · simp
    rcases prime_dvd_mul_pow hq prime_5 hdv with rfl | hdv
    · simp
    rcases prime_dvd_mul_pow hq prime_17 hdv with rfl | hdv
    · simp
    rcases prime_dvd_mul_pow hq prime_51376543 hdv with rfl | hdv
    · simp
    exact absurd (Nat.dvd_one.mp hdv) hq.ne_one
  · apply zmod_powMod_eq_one
    · norm_num
    · decide
    · decide
  · intro q hq
    simp only [List.mem_cons, List.not_mem_nil, or_false] at hq
    rcases hq with rfl | rfl | rfl | rfl
    · exact zmod_powMod_ne_one _ _ _ (by norm_num) (by decide) (by decide)
    · exact zmod_powMod_ne_one _ _ _ (by norm_num) (by decide) (by decide)
    · exact zmod_powMod_ne_one _ _ _ (by norm_num) (by decide) (by decide)
    · exact zmod_powMod_ne_one _ _ _ (by norm_num) (by decide) (by decide)

theorem prime_9272813673901 : Nat.Prime 9272813673901 := by
  apply lucas_cert 9272813673901 2 [2, 3, 5, 7, 7577, 582767]
  · intro q hq hdv
    have hfac : 9272813673901 - 1 = 2 ^ 2 * (3 ^ 1 * (5 ^ 2 * (7 ^ 1 * (7577 ^ 1 * (582767 ^ 1 * (1)))))) := by norm_num
    rw [hfac] at hdv
    rcases prime_dvd_mul_pow hq prime_2 hdv with rfl | hdv
    · simp
    rcases prime_dvd_mul_pow hq prime_3 hdv with rfl | hdv
    · simp
    rcases prime_dvd_mul_pow hq prime_5 hdv with rfl | hdv
    · simp
    rcases prime_dvd_mul_pow hq prime_7 hdv with rfl | hdv
    · simp
    rcases prime_dvd_mul_pow hq prime_7577 hdv with rfl | hdv
    · simp
    rcases prime_dvd_mul_pow hq prime_582767 hdv with rfl | hdv
    · simp
    exact absurd (Nat.dvd_one.mp hdv) hq.ne_one
  · apply zmod_powMod_eq_one
    · norm_num
    · decide
    · decide
  · intro q hq
    simp only [List.mem_cons, List.not_mem_nil, or_false] at hq
    rcases hq with rfl | rfl | rfl | rfl | rfl | rfl
    · exact zmod_powMod_ne_one _ _ _ (by norm_num) (by decide) (by decide)
    · exact zmod_powMod_ne_one _ _ _ (by norm_num) (by decide) (by decide)
    · exact zmod_powMod_ne_one _ _ _ (by norm_num) (by decide) (by decide)
    · exact zmod_powMod_ne_one _ _ _ (by norm_num) (by decide) (by decide)
    · exact zmod_powMod_ne_one _ _ _ (by norm_num) (by decide) (by decide)
    · exact zmod_powMod_ne_one _ _ _ (by norm_num) (by decide) (by decide)

theorem prime_64881703735777 : Nat.Prime 64881703735777 := by
  apply lucas_cert 64881703735777 5 [2, 3, 927093389]
  · intro q hq hdv
    have hfac : 64881703735777 - 1 = 2 ^ 5 * (3 ^ 7 * (927093389 ^ 1 * (1))) := by norm_num
    rw [hfac] at hdv
    rcases prime_dvd_mul_pow hq prime_2 hdv with rfl | hdv
    · simp
    rcases prime_dvd_mul_pow hq prime_3 hdv with rfl | hdv
    · simp
    rcases prime_dvd_mul_pow hq prime_927093389 hdv with rfl | hdv
    · simp
    exact absurd (Nat.dvd_one.mp hdv) hq.ne_one
  · apply zmod_powMod_eq_one
    · norm_num
    · decide
    · decide
  · intro q hq
    simp only [List.mem_cons, List.not_mem_nil, or_false] at hq
    rcases hq with rfl | rfl | rfl
    · exact zmod_powMod_ne_one _ _ _ (by norm_num) (by decide) (by decide)
    · exact zmod_powMod_ne_one _ _ _ (by norm_num) (by decide) (by decide)
    · exact zmod_powMod_ne_one _ _ _ (by norm_num) (by decide) (by decide)

theorem prime_1928745244171409 : Nat.Prime 1928745244171409 := by
  apply lucas_cert 1928745244171409 3 [2, 13, 9272813673901]
  · intro q hq hdv
    have hfac : 1928745244171409 - 1 = 2 ^ 4 * (13 ^ 1 * (9272813673901 ^ 1 * (1))) := by norm_num
    rw [hfac] at hdv
    rcases prime_dvd_mul_pow hq prime_2 hdv with rfl | hdv
    · simp
    rcases prime_dvd_mul_pow hq prime_13 hdv with rfl | hdv
    · simp
    rcases prime_dvd_mul_pow hq prime_9272813673901 hdv with rfl | hdv
    · simp
    exact absurd (Nat.dvd_one.mp hdv) hq.ne_one
  · apply zmod_powMod_eq_one
    · norm_num
    · decide
    · decide
  · intro q hq
    simp only [List.mem_cons, List.not_mem_nil, or_false] at hq
    rcases hq with rfl | rfl | rfl
    · exact zmod_powMod_ne_one _ _ _ (by norm_num) (by decide) (by decide)
    · exact zmod_powMod_ne_one _ _ _ (by norm_num) (by decide) (by decide)
    · exact zmod_powMod_ne_one _ _ _ (by norm_num) (by decide) (by decide)

theorem prime_7259797099061183477 : Nat.Prime 7259797099061183477 := by
  apply lucas_cert 7259797099061183477 2 [2, 941, 1928745244171409]
  · intro q hq hdv
    have hfac : 7259797099061183477 - 1 = 2 ^ 2 * (941 ^ 1 * (1928745244171409 ^ 1 * (1))) := by norm_num
    rw [hfac] at hdv
    rcases prime_dvd_mul_pow hq prime_2 hdv with rfl | hdv
    · simp
    rcases prime_dvd_mul_pow hq prime_941 hdv with rfl | hdv
    · simp
    rcases prime_dvd_mul_pow hq prime_1928745244171409 hdv with rfl | hdv
    · simp
    exact absurd (Nat.dvd_one.mp hdv) hq.ne_one
  · apply zmod_powMod_eq_one
    · norm_num
    · decide
    · decide
  · intro q hq
    simp only [List.mem_cons, List.not_mem_nil, or_false] at hq
    rcases hq with rfl | rfl | rfl
    · exact zmod_powMod_ne_one _ _ _ (by norm_num) (by decide) (by decide)
    · exact zmod_powMod_ne_one _ _ _ (by norm_num) (by decide) (by decide)
    · exact zmod_powMod_ne_one _ _ _ (by norm_num) (by decide) (by decide)

theorem prime_2584487767265781317813 : Nat.Prime 2584487767265781317813 := by
  apply lucas_cert 2584487767265781317813 2 [2, 89, 7259797099061183477]
  · intro q hq hdv
    have hfac : 2584487767265781317813 - 1 = 2 ^ 2 * (89 ^ 1 * (7259797099061183477 ^ 1 * (1))) := by norm_num
    rw [hfac] at hdv
    rcases prime_dvd_mul_pow hq prime_2 hdv with rfl | hdv
    · simp
    rcases prime_dvd_mul_pow hq prime_89 hdv with rfl | hdv
    · simp
    rcases prime_dvd_mul_pow hq prime_7259797099061183477 hdv with rfl | hdv
    · simp
    exact absurd (Nat.dvd_one.mp hdv) hq.ne_one
  · apply zmod_powMod_eq_one
    · norm_num
    · decide
    · decide
  · intro q hq
    simp only [List.mem_cons, List.not_mem_nil, or_false] at hq
    rcases hq with rfl | rfl | rfl
    · exact zmod_powMod_ne_one _ _ _ (by norm_num) (by decide) (by decide)
    · exact zmod_powMod_ne_one _ _ _ (by norm_num) (by decide) (by decide)
    · exact zmod_powMod_ne_one _ _ _ (by norm_num) (by decide) (by decide)

theorem prime_3819663927398918131021 : Nat.Prime 3819663927398918131021 := by
  apply lucas_cert 3819663927398918131021 6 [2, 3, 5, 19, 113, 755057, 13090036741]
  · intro q hq hdv
    have hfac : 3819663927398918131021 - 1 = 2 ^ 2 * (3 ^ 2 * (5 ^ 1 * (19 ^ 1 * (113 ^ 1 * (755057 ^ 1 * (13090036741 ^ 1 * (1))))))) := by norm_num
    rw [hfac] at hdv
    rcases prime_dvd_mul_pow hq prime_2 hdv with rfl | hdv
    · simp
    rcases prime_dvd_mul_pow hq prime_3 hdv with rfl | hdv
    · simp
    rcases prime_dvd_mul_pow hq prime_5 hdv with rfl | hdv
    · simp
    rcases prime_dvd_mul_pow hq prime_19 hdv with rfl | hdv
    · simp
    rcases prime_dvd_mul_pow hq prime_113 hdv with rfl | hdv
    · simp
    rcases prime_dvd_mul_pow hq prime_755057 hdv with rfl | hdv
    · simp
    rcases prime_dvd_mul_pow hq prime_13090036741 hdv with rfl | hdv
    · simp
    exact absurd (Nat.dvd_one.mp hdv) hq.ne_one
  · apply zmod_powMod_eq_one
    · norm_num
    · decide
    · decide
  · intro q hq
    simp only [List.mem_cons, List.not_mem_nil, or_false] at hq
    rcases hq with rfl | rfl | rfl | rfl | rfl | rfl | rfl
    · exact zmod_powMod_ne_one _ _ _ (by norm_num) (by decide) (by decide)
    · exact zmod_powMod_ne_one _ _ _ (by norm_num) (by decide) (by decide)
    · exact zmod_powMod_ne_one _ _ _ (by norm_num) (by decide) (by decide)
    · exact zmod_powMod_ne_one _ _ _ (by norm_num) (by decide) (by decide)
    · exact zmod_powMod_ne_one _ _ _ (by norm_num) (by decide) (by decide)
    · exact zmod_powMod_ne_one _ _ _ (by norm_num) (by decide) (by decide)
    · exact zmod_powMod_ne_one _ _ _ (by norm_num) (by decide) (by decide)

theorem prime_92691255082156974996979 : Nat.Prime 92691255082156974996979 := by
  apply lucas_cert 92691255082156974996979 3 [2, 3, 31, 467, 16447, 64881703735777]
  · intro q hq hdv
    have hfac : 92691255082156974996979 - 1 = 2 ^ 1 * (3 ^ 1 * (31 ^ 1 * (467 ^ 1 * (16447 ^ 1 * (64881703735777 ^ 1 * (1)))))) := by norm_num
    rw [hfac] at hdv
    rcases prime_dvd_mul_pow hq prime_2 hdv with rfl | hdv
    · simp
    rcases prime_dvd_mul_pow hq prime_3 hdv with rfl | hdv
    · simp
    rcases prime_dvd_mul_pow hq prime_31 hdv with rfl | hdv
    · simp
    rcases prime_dvd_mul_pow hq prime_467 hdv with rfl | hdv
    · simp
    rcases prime_dvd_mul_pow hq prime_16447 hdv with rfl | hdv
    · simp
    rcases prime_dvd_mul_pow hq prime_64881703735777 hdv with rfl | hdv
    · simp
    exact absurd (Nat.dvd_one.mp hdv) hq.ne_one
  · apply zmod_powMod_eq_one
    · norm_num
    · decide
    · decide
  · intro q hq
    simp only [List.mem_cons, List.not_mem_nil, or_false] at hq
    rcases hq with rfl | rfl | rfl | rfl | rfl | rfl
    · exact zmod_powMod_ne_one _ _ _ (by norm_num) (by decide) (by decide)
    · exact zmod_powMod_ne_one _ _ _ (by norm_num) (by decide) (by decide)
    · exact zmod_powMod_ne_one _ _ _ (by norm_num) (by decide) (by decide)
    · exact zmod_powMod_ne_one _ _ _ (by norm_num) (by decide) (by decide)
    · exact zmod_powMod_ne_one _ _ _ (by norm_num) (by decide) (by decide)
    · exact zmod_powMod_ne_one _ _ _ (by norm_num) (by decide) (by decide)

theorem prime_b37 : Nat.Prime 1125266252156850182658904441386709967 := by
  apply lucas_cert 1125266252156850182658904441386709967 5 [2, 3373, 43670061551, 3819663927398918131021]
  · intro q hq hdv
    have hfac : 1125266252156850182658904441386709967 - 1 = 2 ^ 1 * (3373 ^ 1 * (43670061551 ^ 1 * (3819663927398918131021 ^ 1 * (1)))) := by norm_num
    rw [hfac] at hdv
    rcases prime_dvd_mul_pow hq prime_2 hdv with rfl | hdv
    · simp
    rcases prime_dvd_mul_pow hq prime_3373 hdv with rfl | hdv
    · simp
    rcases prime_dvd_mul_pow hq prime_43670061551 hdv with rfl | hdv
    · simp
    rcases prime_dvd_mul_pow hq prime_3819663927398918131021 hdv with rfl | hdv
    · simp
    exact absurd (Nat.dvd_one.mp hdv) hq.ne_one
  · apply zmod_powMod_eq_one
    · norm_num
    · decide
    · decide
  · intro q hq
    simp only [List.mem_cons, List.not_mem_nil, or_false] at hq
    rcases hq with rfl | rfl | rfl | rfl
    · exact zmod_powMod_ne_one _ _ _ (by norm_num) (by decide) (by decide)
    · exact zmod_powMod_ne_one _ _ _ (by norm_num) (by decide) (by decide)
    · exact zmod_powMod_ne_one _ _ _ (by norm_num) (by decide) (by decide)
    · exact zmod_powMod_ne_one _ _ _ (by norm_num) (by decide) (by decide)

theorem prime_b71 : Nat.Prime 15778400344354997994418419698270088123916926905054652752758194827714659 := by
  apply lucas_cert 15778400344354997994418419698270088123916926905054652752758194827714659 2 [2, 3, 53, 475709467, 92691255082156974996979, 1125266252156850182658904441386709967]
  · intro q hq hdv
    have hfac : 15778400344354997994418419698270088123916926905054652752758194827714659 - 1 = 2 ^ 1 * (3 ^ 1 * (53 ^ 1 * (475709467 ^ 1 * (92691255082156974996979 ^ 1 * (1125266252156850182658904441386709967 ^ 1 * (1)))))) := by norm_num
    rw [hfac] at hdv
    rcases prime_dvd_mul_pow hq prime_2 hdv with rfl | hdv
    · simp
    rcases prime_dvd_mul_pow hq prime_3 hdv with rfl | hdv
    · simp
    rcases prime_dvd_mul_pow hq prime_53 hdv with rfl | hdv
    · simp
    rcases prime_dvd_mul_pow hq prime_475709467 hdv with rfl | hdv
    · simp
    rcases prime_dvd_mul_pow hq prime_92691255082156974996979 hdv with rfl | hdv
    · simp
    rcases prime_dvd_mul_pow hq prime_b37 hdv with rfl | hdv
    · simp
    exact absurd (Nat.dvd_one.mp hdv) hq.ne_one
  · apply zmod_powMod_eq_one
    · norm_num
    · decide
    · decide
  · intro q hq
    simp only [List.mem_cons, List.not_mem_nil, or_false] at hq
    rcases hq with rfl | rfl | rfl | rfl | rfl | rfl
    · exact zmod_powMod_ne_one _ _ _ (by norm_num) (by decide) (by decide)
    · exact zmod_powMod_ne_one _ _ _ (by norm_num) (by decide) (by decide)
    · exact zmod_powMod_ne_one _ _ _ (by norm_num) (by decide) (by decide)
    · exact zmod_powMod_ne_one _ _ _ (by norm_num) (by decide) (by decide)
    · exact zmod_powMod_ne_one _ _ _ (by norm_num) (by decide) (by decide)
    · exact zmod_powMod_ne_one _ _ _ (by norm_num) (by decide) (by decide)

theorem blsP_prime : Nat.Prime blsP := by
  apply lucas_cert blsP 2 [2, 3, 11, 23, 47, 10177, 859267, 52437899, 2584487767265781317813, 15778400344354997994418419698270088123916926905054652752758194827714659]
  · intro q hq hdv
    have hfac : blsP - 1 = 2 ^ 1 * (3 ^ 2 * (11 ^ 1 * (23 ^ 1 * (47 ^ 1 * (10177 ^ 1 * (859267 ^ 1 * (52437899 ^ 1 * (2584487767265781317813 ^ 1 * (15778400344354997994418419698270088123916926905054652752758194827714659 ^ 1 * (1)))))))))) := by norm_num [blsP]
    rw [hfac] at hdv
    rcases prime_dvd_mul_pow hq prime_2 hdv with rfl | hdv
    · simp
    rcases prime_dvd_mul_pow hq prime_3 hdv with rfl | hdv
    · simp
    rcases prime_dvd_mul_pow hq prime_11 hdv with rfl | hdv
    · simp
    rcases prime_dvd_mul_pow hq prime_23 hdv with rfl | hdv
    · simp
    rcases prime_dvd_mul_pow hq prime_47 hdv with rfl | hdv
    · simp
    rcases prime_dvd_mul_pow hq prime_10177 hdv with rfl | hdv
    · simp
    rcases prime_dvd_mul_pow hq prime_859267 hdv with rfl | hdv
    · simp
    rcases prime_dvd_mul_pow hq prime_52437899 hdv with rfl | hdv
    · simp
    rcases prime_dvd_mul_pow hq prime_2584487767265781317813 hdv with rfl | hdv
    · simp
    rcases prime_dvd_mul_pow hq prime_b71 hdv with rfl | hdv
    · simp
    exact absurd (Nat.dvd_one.mp hdv) hq.ne_one
  · apply zmod_powMod_eq_one
    · norm_num [blsP]
    · decide
    · decide
  · intro q hq
    simp only [List.mem_cons, List.not_mem_nil, or_false] at hq
    rcases hq with rfl | rfl | rfl | rfl | rfl | rfl | rfl | rfl | rfl | rfl
    · exact zmod_powMod_ne_one _ _ _ (by norm_num [blsP]) (by decide) (by decide)
    · exact zmod_powMod_ne_one _ _ _ (by norm_num [blsP]) (by decide) (by decide)
    · exact zmod_powMod_ne_one _ _ _ (by norm_num [blsP]) (by decide) (by decide)
    · exact zmod_powMod_ne_one _ _ _ (by norm_num [blsP]) (by decide) (by decide)
    · exact zmod_powMod_ne_one _ _ _ (by norm_num [blsP]) (by decide) (by decide)
    · exact zmod_powMod_ne_one _ _ _ (by norm_num [blsP]) (by decide) (by decide)
    · exact zmod_powMod_ne_one _ _ _ (by norm_num [blsP]) (by decide) (by decide)
    · exact zmod_powMod_ne_one _ _ _ (by norm_num [blsP]) (by decide) (by decide)
    · exact zmod_powMod_ne_one _ _ _ (by norm_num [blsP]) (by decide) (by decide)
    · exact zmod_powMod_ne_one _ _ _ (by norm_num [blsP]) (by decide) (by decide)

instance : Fact (Nat.Prime blsP) := ⟨blsP_prime⟩

theorem blsP_mod_four : blsP % 4 = 3 := by norm_num [blsP]

theorem not_isSquare_neg_one_fq : ¬ IsSquare (-1 : Fq) := by
  rw [ZMod.exists_sq_eq_neg_one_iff]
  simp [blsP_mod_four]

/-- In `Fq` the sum of two squares vanishes only when both terms do (since
`-1` is not a square modulo `blsP`). -/
theorem sq_add_sq_eq_zero {a b : Fq} (h : a * a + b * b = 0) : a = 0 ∧ b = 0 := by
  by_cases hb : b = 0
  · subst hb
    refine ⟨?_, rfl⟩
    have : a * a = 0 := by simpa using h
    rcases mul_eq_zero.mp this with h' | h' <;> exact h'
  · exfalso
    apply not_isSquare_neg_one_fq
    refine ⟨a * b⁻¹, ?_⟩
    have hbb : b * b ≠ 0 := mul_ne_zero hb hb
    have h' : a * a = -(b * b) := by linear_combination h
    field_simp
    linear_combination -h'

/-- Fermat-exponentiation inverse on the base field: the executable model
of the external library's field inversion. -/
def fqInv (a : Fq) : Fq := ((powMod 512 a.val (blsP - 2) blsP : ℕ) : Fq)

theorem fqInv_eq (a : Fq) : fqInv a = a⁻¹ := by
  have hP : 0 < blsP := by norm_num [blsP]
  have he : blsP - 2 < 2 ^ 512 := by norm_num [blsP]
  have hcast : fqInv a = a ^ (blsP - 2) := by
    unfold fqInv
    rw [powMod_eq 512 a.val (blsP - 2) blsP hP he, ZMod.natCast_mod, Nat.cast_pow,
      ZMod.natCast_zmod_val]
  rw [hcast]
  by_cases ha : a = 0
  · subst ha
    rw [zero_pow (by norm_num [blsP]), inv_zero]
  · have h1 : a ^ (blsP - 2) * a = 1 := by
      rw [← pow_succ]
      have h2 : blsP - 2 + 1 = blsP - 1 := by
        have : 2 ≤ blsP := by norm_num [blsP]
        omega
      rw [h2]
      exact ZMod.pow_card_sub_one_eq_one ha
    exact eq_inv_of_mul_eq_one_left h1

/-- Inversion on `Fq2`, modelling the external `Fq2::inverse`:
`(a + bi)⁻¹ = (a - bi) / (a² + b²)`. -/
def Fq2.inv0 (x : Fq2) : Fq2 :=
  let n := x.c0 * x.c0 + x.c1 * x.c1
  ⟨x.c0 * fqInv n, -x.c1 * fqInv n⟩

theorem Fq2.norm_ne_zero {x : Fq2} (hx : x ≠ 0) : x.c0 * x.c0 + x.c1 * x.c1 ≠ 0 := by
  intro h
  rcases sq_add_sq_eq_zero h with ⟨h0, h1⟩
  exact hx (Fq2.ext_c h0 h1)

theorem Fq2.mul_inv0_cancel {x : Fq2} (hx : x ≠ 0) : x * Fq2.inv0 x = 1 := by
  have hn := Fq2.norm_ne_zero hx
  apply Fq2.ext_c
  · show x.c0 * (x.c0 * fqInv (x.c0 * x.c0 + x.c1 * x.c1)) -
        x.c1 * (-x.c1 * fqInv (x.c0 * x.c0 + x.c1 * x.c1)) = 1
    rw [fqInv_eq]
    field_simp
  · show x.c0 * (-x.c1 * fqInv (x.c0 * x.c0 + x.c1 * x.c1)) +
        x.c1 * (x.c0 * fqInv (x.c0 * x.c0 + x.c1 * x.c1)) = 0
    ring


instance : Field Fq2 where
  inv := Fq2.inv0
  exists_pair_ne := ⟨0, 1, by decide⟩
  mul_inv_cancel a ha := Fq2.mul_inv0_cancel ha
  inv_zero := by
    show Fq2.inv0 0 = 0
    unfold Fq2.inv0
    apply Fq2.ext_c <;> simp [Fq2.zero_def]
  nnqsmul := _
  qsmul := _

theorem Fq2.inv_def (x : Fq2) : x⁻¹ = Fq2.inv0 x := rfl

def fq2Equiv : Fq2 ≃ Fq × Fq where
  toFun x := (x.c0, x.c1)
  invFun p := ⟨p.1, p.2⟩
  left_inv x := rfl
  right_inv p := rfl

instance : Fintype Fq2 := Fintype.ofEquiv (Fq × Fq) fq2Equiv.symm

theorem fq2_card : Fintype.card Fq2 = blsP * blsP := by
  rw [Fintype.card_congr fq2Equiv, Fintype.card_prod, ZMod.card]

theorem Fq2.natCast_component : ∀ n : ℕ, (n : Fq2) = ⟨(n : Fq), 0⟩ := by
  intro n
  induction n with
  | zero => rw [Nat.cast_zero, Nat.cast_zero]; rfl
  | succ n ih =>
    rw [Nat.cast_succ, Nat.cast_succ, ih]
    apply Fq2.ext_c <;> simp [Fq2.add_def, Fq2.one_def]

instance : CharP Fq2 blsP where
  cast_eq_zero_iff' n := by
    rw [Fq2.natCast_component]
    constructor
    · intro h
      have h0 : (n : Fq) = 0 := congrArg Fq2.c0 h
      exact (ZMod.natCast_zmod_eq_zero_iff_dvd n blsP).mp h0
    · intro h
      have h0 : (n : Fq) = 0 := (ZMod.natCast_zmod_eq_zero_iff_dvd n blsP).mpr h
      rw [h0]
      rfl

theorem ringChar_fq2 : ringChar Fq2 = blsP := ringChar.eq Fq2 blsP

/-- The embedding of the base field into `Fq2`. -/
def fqEmb : Fq →+* Fq2 where
  toFun a := ⟨a, 0⟩
  map_one' := rfl
  map_mul' a b := by apply Fq2.ext_c <;> simp [Fq2.mul_def]
  map_zero' := rfl
  map_add' a b := by apply Fq2.ext_c <;> simp [Fq2.add_def]

theorem fqEmb_injective : Function.Injective fqEmb := by
  intro a b h
  exact congrArg Fq2.c0 h

/-- The imaginary unit of `Fq2`. -/
def iFq2 : Fq2 := ⟨0, 1⟩

theorem iFq2_sq : iFq2 * iFq2 = -1 := by
  apply Fq2.ext_c <;> simp [iFq2, Fq2.mul_def, Fq2.neg_def, Fq2.one_def]

theorem fq2_decompose (x : Fq2) : x = fqEmb x.c0 + fqEmb x.c1 * iFq2 := by
  apply Fq2.ext_c <;> simp [fqEmb, iFq2, Fq2.add_def, Fq2.mul_def]

theorem odd_half_blsP : Odd ((blsP - 1) / 2) := by
  rw [Nat.odd_iff]
  norm_num [blsP]

theorem iFq2_pow_blsP : iFq2 ^ blsP = -iFq2 := by
  have h1 : blsP = 2 * ((blsP - 1) / 2) + 1 := by norm_num [blsP]
  calc iFq2 ^ blsP = iFq2 ^ (2 * ((blsP - 1) / 2) + 1) := by rw [← h1]
    _ = ((iFq2 * iFq2) ^ ((blsP - 1) / 2)) * iFq2 := by
        rw [pow_succ, pow_mul, pow_two]
    _ = ((-1 : Fq2) ^ ((blsP - 1) / 2)) * iFq2 := by rw [iFq2_sq]
    _ = -iFq2 := by rw [odd_half_blsP.neg_one_pow]; ring

/-- Frobenius on `Fq2` is component-wise conjugation. -/
theorem pow_blsP_conj (x : Fq2) : x ^ blsP = ⟨x.c0, -x.c1⟩ := by
  conv_lhs => rw [fq2_decompose x]
  rw [add_pow_char]
  rw [mul_pow]
  have ha : fqEmb x.c0 ^ blsP = fqEmb x.c0 := by
    rw [← map_pow, ZMod.pow_card]
  have hb : fqEmb x.c1 ^ blsP = fqEmb x.c1 := by
    rw [← map_pow, ZMod.pow_card]
  rw [ha, hb, iFq2_pow_blsP]
  apply Fq2.ext_c <;> simp [fqEmb, iFq2, Fq2.add_def, Fq2.mul_def, Fq2.neg_def]

/-- The field norm of `Fq2` down to `Fq`, `N(a+bi) = a² + b²`. -/
def Fq2.normF (x : Fq2) : Fq := x.c0 * x.c0 + x.c1 * x.c1

theorem pow_blsP_succ_norm (x : Fq2) : x ^ (blsP + 1) = fqEmb (Fq2.normF x) := by
  rw [pow_succ, pow_blsP_conj]
  apply Fq2.ext_c <;> simp [fqEmb, Fq2.normF, Fq2.mul_def] <;> ring

theorem ringChar_fq : ringChar Fq = blsP := ringChar.eq Fq blsP

theorem ringChar_fq_ne_two : ringChar Fq ≠ 2 := by
  rw [ringChar_fq]; norm_num [blsP]

theorem ringChar_fq2_ne_two : ringChar Fq2 ≠ 2 := by
  rw [ringChar_fq2]; norm_num [blsP]

theorem card_fq_half : Fintype.card Fq / 2 = (blsP - 1) / 2 := by
  rw [ZMod.card]
  norm_num [blsP]

theorem card_fq2_half : Fintype.card Fq2 / 2 = (blsP + 1) * ((blsP - 1) / 2) := by
  rw [fq2_card]; norm_num [blsP]

/-- Square criterion for `Fq2` through the norm map: a nonzero element is
a square exactly when its norm is a square in the base field. -/
theorem fq2_isSquare_iff_norm {x : Fq2} (hx : x ≠ 0) :
    IsSquare x ↔ IsSquare (Fq2.normF x) := by
  have hnx : Fq2.normF x ≠ 0 := Fq2.norm_ne_zero hx
  rw [FiniteField.isSquare_iff ringChar_fq2_ne_two hx,
    FiniteField.isSquare_iff ringChar_fq_ne_two hnx, card_fq_half, card_fq2_half,
    pow_mul, pow_blsP_succ_norm, ← map_pow]
  constructor
  · intro h
    apply fqEmb_injective
    rw [h, map_one]
  · intro h
    rw [h, map_one]

theorem nonsquare_mul_nonsquare {a b : Fq2} (ha : ¬ IsSquare a) (hb : ¬ IsSquare b) :
    IsSquare (a * b) := by
  have ha0 : a ≠ 0 := by rintro rfl; exact ha ⟨0, by ring⟩
  have hb0 : b ≠ 0 := by rintro rfl; exact hb ⟨0, by ring⟩
  have hca : quadraticChar Fq2 a = -1 := quadraticChar_neg_one_iff_not_isSquare.mpr ha
  have hcb : quadraticChar Fq2 b = -1 := quadraticChar_neg_one_iff_not_isSquare.mpr hb
  have hmul : quadraticChar Fq2 (a * b) = 1 := by
    rw [map_mul, hca, hcb]; norm_num
  exact (quadraticChar_one_iff_isSquare (mul_ne_zero ha0 hb0)).mp hmul

theorem five_not_square_fq : ¬ IsSquare (5 : Fq) := by
  rw [FiniteField.isSquare_iff ringChar_fq_ne_two (by decide), card_fq_half]
  have h5 : (5 : Fq) = ((5 : ℕ) : Fq) := by norm_num
  rw [h5]
  apply zmod_powMod_ne_one
  · norm_num [blsP]
  · norm_num [blsP]
  · decide

/-- Euler criterion certificate: a nonzero base-field element whose
`(p-1)/2` power is `1` is a square. -/
theorem fq_square_of_euler {a : ℕ} (ha : (a : Fq) ≠ 0)
    (h : powMod 512 a ((blsP - 1) / 2) blsP = 1) : IsSquare ((a : ℕ) : Fq) := by
  rw [FiniteField.isSquare_iff ringChar_fq_ne_two ha, card_fq_half]
  apply zmod_powMod_eq_one
  · norm_num [blsP]
  · norm_num [blsP]
  · exact h

/-- Tail-recursive fuel-driven exponentiation on `Fq2` (executable model
for the external library's exponentiation-based square testing); the
accumulator keeps kernel evaluation shallow. -/
def fq2PowTail : ℕ → Fq2 → ℕ → Fq2 → Fq2
  | 0, _b, _e, acc => acc
  | f+1, b, e, acc =>
    if e = 0 then acc
    else fq2PowTail f (b * b) (e / 2) (if e % 2 = 0 then acc else acc * b)

theorem fq2PowTail_eq : ∀ (f : ℕ) (b : Fq2) (e : ℕ) (acc : Fq2), e < 2 ^ f →
    fq2PowTail f b e acc = acc * b ^ e := by
  intro f
  induction f with
  | zero =>
    intro b e acc he
    have h0 : e = 0 := by omega
    subst h0
    simp [fq2PowTail]
  | succ f ih =>
    intro b e acc he
    by_cases he0 : e = 0
    · subst he0; simp [fq2PowTail]
    · have h2 : 2 ^ (f + 1) = 2 * 2 ^ f := by rw [pow_succ]; ring
      have hlt : e / 2 < 2 ^ f := by omega
      have hstep : fq2PowTail (f + 1) b e acc =
          fq2PowTail f (b * b) (e / 2) (if e % 2 = 0 then acc else acc * b) := by
        simp [fq2PowTail, he0]
      rw [hstep, ih (b * b) (e / 2) _ hlt]
      have hsplit : e = 2 * (e / 2) + e % 2 := (Nat.div_add_mod e 2).symm.trans (by ring)
      rcases Nat.mod_two_eq_zero_or_one e with h1 | h1
      · have he2 : 2 * (e / 2) = e := by omega
        rw [if_pos h1, ← pow_two, ← pow_mul, he2]
      · have he2 : 2 * (e / 2) + 1 = e := by omega
        rw [if_neg (by omega), ← pow_two, ← pow_mul, mul_assoc,
          mul_comm b (b ^ (2 * (e / 2))), ← pow_succ, he2]

/-- Executable quadratic-residue test on `Fq2` (Euler criterion): the
model of the external `Fq2::sqrt(...).is_some()` branch condition. -/
def isSquareFq2 (x : Fq2) : Bool :=
  x == 0 || fq2PowTail 1024 x ((blsP * blsP - 1) / 2) 1 == 1

theorem isSquareFq2_iff (x : Fq2) : isSquareFq2 x = true ↔ IsSquare x := by
  unfold isSquareFq2
  by_cases hx : x = 0
  · subst hx
    simp
  · have he : (blsP * blsP - 1) / 2 < 2 ^ 1024 := by decide
    rw [FiniteField.isSquare_iff ringChar_fq2_ne_two hx, card_fq2_half]
    have hexp : (blsP + 1) * ((blsP - 1) / 2) = (blsP * blsP - 1) / 2 := by
      norm_num [blsP]
    rw [hexp, Bool.or_eq_true, beq_iff_eq, beq_iff_eq, fq2PowTail_eq 1024 x _ 1 he, one_mul]
    simp [hx]

/-- The 64 SHA-256 round constants. -/
def sha256K : List ℕ := [1116352408, 1899447441, 3049323471, 3921009573, 961987163, 1508970993, 2453635748, 2870763221, 3624381080, 310598401, 607225278, 1426881987, 1925078388, 2162078206, 2614888103, 3248222580, 3835390401, 4022224774, 264347078, 604807628, 770255983, 1249150122, 1555081692, 1996064986, 2554220882, 2821834349, 2952996808, 3210313671, 3336571891, 3584528711, 113926993, 338241895, 666307205, 773529912, 1294757372, 1396182291, 1695183700, 1986661051, 2177026350, 2456956037, 2730485921, 2820302411, 3259730800, 3345764771, 3516065817, 3600352804, 4094571909, 275423344, 430227734, 506948616, 659060556, 883997877, 958139571, 1322822218, 1537002063, 1747873779, 1955562222, 2024104815, 2227730452, 2361852424, 2428436474, 2756734187, 3204031479, 3329325298]

/-- SHA-256 compression state (eight 32-bit words). -/
structure Sha2State : Type where
  sa : ℕ
  sb : ℕ
  sc : ℕ
  sd : ℕ
  se : ℕ
  sf : ℕ
  sg : ℕ
  sh : ℕ
deriving DecidableEq

/-- The SHA-256 initial hash value. -/
def sha256Init : Sha2State := ⟨1779033703, 3144134277, 1013904242, 2773480762, 1359893119, 2600822924, 528734635, 1541459225⟩

def w32 : ℕ := 4294967296

def rotr32 (n x : ℕ) : ℕ := ((x >>> n) ||| (x <<< (32 - n))) % w32

def shaBigS0 (x : ℕ) : ℕ := rotr32 2 x ^^^ rotr32 13 x ^^^ rotr32 22 x

def shaBigS1 (x : ℕ) : ℕ := rotr32 6 x ^^^ rotr32 11 x ^^^ rotr32 25 x

def shaSmallS0 (x : ℕ) : ℕ := rotr32 7 x ^^^ rotr32 18 x ^^^ (x >>> 3)

def shaSmallS1 (x : ℕ) : ℕ := rotr32 17 x ^^^ rotr32 19 x ^^^ (x >>> 10)

def shaCh (e f g : ℕ) : ℕ := (e &&& f) ^^^ ((e ^^^ 4294967295) &&& g)

def shaMaj (a b c : ℕ) : ℕ := (a &&& b) ^^^ (a &&& c) ^^^ (b &&& c)

/-- Big-endian 32-bit words from a byte list. -/
def toWordsBE : List ℕ → List ℕ
  | b3 :: b2 :: b1 :: b0 :: rest => (((b3 * 256 + b2) * 256 + b1) * 256 + b0) :: toWordsBE rest
  | _ => []

/-- Message-schedule extension; `acc` holds the schedule so far, newest
word first. -/
def schedExt : ℕ → List ℕ → List ℕ
  | 0, acc => acc
  | n+1, acc =>
    let w := (shaSmallS1 (acc.getD 1 0) + acc.getD 6 0 + shaSmallS0 (acc.getD 14 0)
      + acc.getD 15 0) % w32
    schedExt n (w :: acc)

/-- The 64-entry message schedule of one block. -/
def sha256Schedule (block : List ℕ) : List ℕ :=
  (schedExt 48 (toWordsBE block).reverse).reverse

def sha2Round (st : Sha2State) (kw : ℕ × ℕ) : Sha2State :=
  let t1 := (st.sh + shaBigS1 st.se + shaCh st.se st.sf st.sg + kw.1 + kw.2) % w32
  let t2 := (shaBigS0 st.sa + shaMaj st.sa st.sb st.sc) % w32
  ⟨(t1 + t2) % w32, st.sa, st.sb, st.sc, (st.sd + t1) % w32, st.se, st.sf, st.sg⟩

def sha2Compress (st : Sha2State) (block : List ℕ) : Sha2State :=
  let ws := sha256Schedule block
  let f := (sha256K.zip ws).foldl sha2Round st
  ⟨(st.sa + f.sa) % w32, (st.sb + f.sb) % w32, (st.sc + f.sc) % w32, (st.sd + f.sd) % w32,
   (st.se + f.se) % w32, (st.sf + f.sf) % w32, (st.sg + f.sg) % w32, (st.sh + f.sh) % w32⟩

/-- 8-byte big-endian encoding of the message bit length. -/
def beBytes8 (n : ℕ) : List ℕ :=
  [n >>> 56 % 256, n >>> 48 % 256, n >>> 40 % 256, n >>> 32 % 256,
   n >>> 24 % 256, n >>> 16 % 256, n >>> 8 % 256, n % 256]

/-- SHA-256 padding: `0x80`, zeros to 56 mod 64, then the bit length. -/
def sha256pad (msg : List ℕ) : List ℕ :=
  let L := msg.length
  let k := (119 - L % 64) % 64
  msg ++ 128 :: List.replicate k 0 ++ beBytes8 (8 * L % 18446744073709551616)

/-- Split into 64-byte blocks (fuel-driven for kernel evaluation). -/
def chunk64 : ℕ → List ℕ → List (List ℕ)
  | 0, _ => []
  | f+1, l => if l.isEmpty then [] else l.take 64 :: chunk64 f (l.drop 64)

def wordBytesBE (w : ℕ) : List ℕ := [w >>> 24 % 256, w >>> 16 % 256, w >>> 8 % 256, w % 256]

/-- SHA-256 of a byte list, as a 32-byte list.  This is the executable
model of the `sha2` crate's `Sha256` used by `expand_message_xmd`. -/
def sha256 (msg : List ℕ) : List ℕ :=
  let blocks := chunk64 (msg.length / 64 + 2) (sha256pad msg)
  let st := blocks.foldl sha2Compress sha256Init
  wordBytesBE st.sa ++ wordBytesBE st.sb ++ wordBytesBE st.sc ++ wordBytesBE st.sd ++
  wordBytesBE st.se ++ wordBytesBE st.sf ++ wordBytesBE st.sg ++ wordBytesBE st.sh

/-- SHA-256 matches the NIST vector for the empty message. -/
theorem sha256_nist_empty : sha256 [] = [0xe3, 0xb0, 0xc4, 0x42, 0x98, 0xfc, 0x1c, 0x14, 0x9a, 0xfb, 0xf4, 0xc8,
    0x99, 0x6f, 0xb9, 0x24, 0x27, 0xae, 0x41, 0xe4, 0x64, 0x9b, 0x93, 0x4c, 0xa4, 0x95, 0x99,
    0x1b, 0x78, 0x52, 0xb8, 0x55] := by decide

/-- SHA-256 matches the NIST vector for `"abc"`. -/
theorem sha256_nist_abc : sha256 [97, 98, 99] = [0xba, 0x78, 0x16, 0xbf, 0x8f, 0x01, 0xcf, 0xea, 0x41, 0x41,
    0x40, 0xde, 0x5d, 0xae, 0x22, 0x23, 0xb0, 0x03, 0x61, 0xa3, 0x96, 0x17, 0x7a, 0x9c, 0xb4,
    0x10, 0xff, 0x61, 0xf2, 0x00, 0x15, 0xad] := by decide

/-- Byte-wise xor of two byte strings (`strxor` of the standard). -/
def strxor (a b : List ℕ) : List ℕ := List.zipWith (fun x y => x ^^^ y) a b

/-- The iteration of step `b_i = H(strxor(b_0, b_(i-1)) || I2OSP(i,1) || DST')`,
mirroring the source's array-filling loop; `acc` holds the blocks produced
so far, newest first, starting from `[b_1]`. -/
def emxLoopRev (b0 dstPrime : List ℕ) : ℕ → List (List ℕ) → List (List ℕ)
  | 0, acc => acc
  | n+1, acc =>
    let next := sha256 (strxor b0 (acc.headD []) ++ [acc.length + 1] ++ dstPrime)
    emxLoopRev b0 dstPrime n (next :: acc)

/-- `expand_message_xmd` with `len_in_bytes = 256` and SHA-256, as in the
source.  The source panics when the DST exceeds 255 bytes
(`dst.len().try_into().unwrap()`); the failure is modelled by `none`.
The check happens before any hashing. -/
def expand_message_xmd (msg dst : List ℕ) : Option (List (List ℕ)) :=
  if dst.length ≤ 255 then
    let dstPrime := dst ++ [dst.length]
    let b0 := sha256 (List.replicate 64 0 ++ msg ++ [1, 0] ++ [0] ++ dstPrime)
    let b1 := sha256 (b0 ++ [1] ++ dstPrime)
    some (emxLoopRev b0 dstPrime 7 [b1]).reverse
  else none

/-- Big-endian byte-string-to-integer conversion (`OS2IP`). -/
def beNat (l : List ℕ) : ℕ := l.foldl (fun acc b => acc * 256 + b) 0

/-- `fq_from_bytes`: interpret two 32-byte chunks as big-endian integers
and return `left·2^256 + right` in `Fq`.  The source converts each chunk
with `Fq::from_repr` (which cannot fail since `2^256 < blsP`) and uses
the constant `2^256`. -/
def fq_from_bytes (left right : List ℕ) : Fq :=
  (beNat left : Fq) * ((2 ^ 256 : ℕ) : Fq) + (beNat right : Fq)

/-- `hash_to_field_fq2`: slice the 8 expanded blocks into two `Fq2`
elements. -/
def hash_to_field_fq2 (msg dst : List ℕ) : Option (Fq2 × Fq2) :=
  (expand_message_xmd msg dst).map fun b =>
    (⟨fq_from_bytes (b.getD 0 []) (b.getD 1 []), fq_from_bytes (b.getD 2 []) (b.getD 3 [])⟩,
     ⟨fq_from_bytes (b.getD 4 []) (b.getD 5 []), fq_from_bytes (b.getD 6 []) (b.getD 7 [])⟩)

/-- The `sgn0` function of the source: `sign_0 | (zero_0 & sign_1)` where
`sign_0 = c0 mod 2`, `zero_0 = (c0 == 0)`, `sign_1 = c1 mod 2` (the limb
`into_repr().0[0] % 2` of a canonical representative is its value mod 2). -/
def sgn0 (x : Fq2) : ℕ :=
  (x.c0.val % 2) ||| ((if x.c0 = 0 then 1 else 0) &&& (x.c1.val % 2))

/-- The auxiliary-curve coefficient `A = 240·i` of the source. -/
def sswuA : Fq2 := ⟨0, 240⟩

/-- The auxiliary-curve coefficient `B = 1012 + 1012·i` of the source. -/
def sswuB : Fq2 := ⟨1012, 1012⟩

/-- The SSWU non-square constant `Z = -(2 + i)` of the source. -/
def sswuZc : Fq2 := -⟨2, 1⟩

/-- `c1 = -B / A`, computed as in the source (`a.inverse()`, multiply by
`b`, negate). -/
def sswuC1 : Fq2 := -(Fq2.inv0 sswuA * sswuB)

/-- `c2 = -1 / Z`, computed as in the source. -/
def sswuC2 : Fq2 := -(Fq2.inv0 sswuZc)

/-- Step 1 of `sswu`: `tv1 = Z·u²`. -/
def sswuTv1 (u : Fq2) : Fq2 := u * u * sswuZc

/-- Step 2 of `sswu`: `tv2 = tv1²`. -/
def sswuTv2 (u : Fq2) : Fq2 := sswuTv1 u * sswuTv1 u

/-- Steps 3–8 of `sswu`: `x1 = (inv0(tv1+tv2) + 1)·c1`, replaced by
`c2·c1` when the inversion returned zero (`e1`). -/
def sswuX1 (u : Fq2) : Fq2 :=
  (if Fq2.inv0 (sswuTv1 u + sswuTv2 u) = 0 then sswuC2
   else Fq2.inv0 (sswuTv1 u + sswuTv2 u) + 1) * sswuC1

/-- Steps 9–12 of `sswu`: `gx1 = x1³ + A·x1 + B` via the source's
intermediate multiplications. -/
def sswuGx1 (u : Fq2) : Fq2 := (sswuX1 u * sswuX1 u + sswuA) * sswuX1 u + sswuB

/-- Step 13 of `sswu`: `x2 = tv1·x1`. -/
def sswuX2 (u : Fq2) : Fq2 := sswuTv1 u * sswuX1 u

/-- Steps 14–15 of `sswu`: `gx2 = gx1·(tv1·tv2)`. -/
def sswuGx2 (u : Fq2) : Fq2 := sswuGx1 u * (sswuTv1 u * sswuTv2 u)

/-- Steps 16–18 of `sswu`: the selected candidate `(x, y²)` before the
square-root step.  `is_square` is the executable Euler test modelling
`gx1.sqrt().is_some()`. -/
def sswuCand (u : Fq2) : Fq2 × Fq2 :=
  if isSquareFq2 (sswuGx1 u) then (sswuX1 u, sswuGx1 u) else (sswuX2 u, sswuGx2 u)

/-- Steps 19–22 of `sswu`, given a square root `y0` of the selected `y²`
(the square root itself is produced by the external field library):
fix the sign of `y` against `sgn0 u`. -/
def sswuFinal (u y0 : Fq2) : Fq2 × Fq2 :=
  ((sswuCand u).1, if sgn0 u = sgn0 y0 then y0 else -y0)

/-- Little-endian 64-bit limb array to integer (the `FqRepr` layout). -/
def limbsToNat (l : List ℕ) : ℕ := l.foldr (fun d acc => acc * 18446744073709551616 + d) 0

/-- An `Fq2` constant from the source's pair of limb arrays. -/
def fq2FromU64s (c : List ℕ × List ℕ) : Fq2 := ⟨(limbsToNat c.1 : Fq), (limbsToNat c.2 : Fq)⟩
/-- Isogeny x-numerator coefficient table (limb arrays as in the source). -/
def K1 : List (List ℕ × List ℕ) := [
  ([7077594464397203414, 6640057249351452444, 9850925049107374429, 3658379999393219626, 13500519111022079365, 416399692810564414],
   [7077594464397203414, 6640057249351452444, 9850925049107374429, 3658379999393219626, 13500519111022079365, 416399692810564414]),
  ([0, 0, 0, 0, 0, 0],
   [2786039319482058522, 1473427674344805717, 11106031073612571672, 10975139998179658879, 3608069185647134863, 1249199078431693244]),
  ([2786039319482058526, 1473427674344805717, 11106031073612571672, 10975139998179658879, 3608069185647134863, 1249199078431693244],
   [10616391696595805069, 736713837172402858, 14776387573661061644, 14710942035944605247, 1804034592823567431, 624599539215846622]),
  ([9863633783879261905, 8113484923696258161, 2510212049010394485, 14633519997572878506, 17108588296669214228, 1665598771242257658],
   [0, 0, 0, 0, 0, 0])]

/-- Isogeny x-denominator coefficient table. -/
def K2 : List (List ℕ × List ℕ) := [
  ([0, 0, 0, 0, 0, 0],
   [13402431016077863523, 2210141511517208575, 7435674573564081700, 7239337960414712511, 5412103778470702295, 1873798617647539866]),
  ([12, 0, 0, 0, 0, 0],
   [13402431016077863583, 2210141511517208575, 7435674573564081700, 7239337960414712511, 5412103778470702295, 1873798617647539866]),
  ([1, 0, 0, 0, 0, 0],
   [0, 0, 0, 0, 0, 0])]

/-- Isogeny y-numerator coefficient table. -/
def K3 : List (List ℕ × List ℕ) := [
  ([1355520937843676934, 18197961889718808424, 17673314439684154624, 1116230615302104219, 6459500568425337235, 1526798873638736187],
   [1355520937843676934, 18197961889718808424, 17673314439684154624, 1116230615302104219, 6459500568425337235, 1526798873638736187]),
  ([0, 0, 0, 0, 0, 0],
   [7077594464397203390, 6640057249351452444, 9850925049107374429, 3658379999393219626, 13500519111022079365, 416399692810564414]),
  ([2786039319482058524, 1473427674344805717, 11106031073612571672, 10975139998179658879, 3608069185647134863, 1249199078431693244],
   [10616391696595805071, 736713837172402858, 14776387573661061644, 14710942035944605247, 1804034592823567431, 624599539215846622]),
  ([16263467779354626832, 5654561228188306393, 12747851915130467410, 8510412652460270214, 18155985086623849168, 1318599027233453979],
   [0, 0, 0, 0, 0, 0])]

/-- Isogeny y-denominator coefficient table. -/
def K4 : List (List ℕ × List ℕ) := [
  ([13402431016077863163, 2210141511517208575, 7435674573564081700, 7239337960414712511, 5412103778470702295, 1873798617647539866],
   [13402431016077863163, 2210141511517208575, 7435674573564081700, 7239337960414712511, 5412103778470702295, 1873798617647539866]),
  ([0, 0, 0, 0, 0, 0],
   [13402431016077863379, 2210141511517208575, 7435674573564081700, 7239337960414712511, 5412103778470702295, 1873798617647539866]),
  ([18, 0, 0, 0, 0, 0],
   [13402431016077863577, 2210141511517208575, 7435674573564081700, 7239337960414712511, 5412103778470702295, 1873798617647539866]),
  ([1, 0, 0, 0, 0, 0],
   [0, 0, 0, 0, 0, 0])]

/-- The source's `horner`: take the top coefficient, then for each further
coefficient (in falling order, paired with the rising `Z`-power list)
multiply by the variable and add the scaled coefficient. -/
def horner (coefficients : List (List ℕ × List ℕ)) (zPowers : List Fq2) (x : Fq2) : Fq2 :=
  match coefficients.reverse with
  | [] => 0
  | c :: rest =>
    (rest.zip zPowers).foldl (fun res cp => res * x + fq2FromU64s cp.1 * cp.2) (fq2FromU64s c)

/-- The even `Z`-power ladder of `iso_map`: the chain of squarings and
multiplications filling `z_pow_2i[0..15]` in the source. -/
def zPow2i (z : Fq2) : List Fq2 :=
  let p0 := z * z
  let p1 := p0 * p0
  let p2 := p1 * p0
  let p3 := p1 * p1
  let p4 := p3 * p0
  let p5 := p4 * p0
  let p6 := p5 * p0
  let p7 := p3 * p3
  let p8 := p7 * p0
  let p9 := p8 * p0
  let p10 := p9 * p0
  let p11 := p10 * p0
  let p12 := p11 * p0
  let p13 := p12 * p0
  let p14 := p13 * p0
  [p0, p1, p2, p3, p4, p5, p6, p7, p8, p9, p10, p11, p12, p13, p14]

/-- The source's `iso_map`: Horner evaluation of the four isogeny
polynomials and the Jacobian-style combination of the results. -/
def iso_map (x y z : Fq2) : Fq2 × Fq2 × Fq2 :=
  let zp := zPow2i z
  let zp0 := zp.getD 0 0
  let x_num := horner K1 zp x
  let x_den := zp0 * horner K2 zp x
  let y_num := y * horner K3 zp x
  let y_den := zp0 * z * horner K4 zp x
  let z_jac := x_den * y_den
  let x_jac := x_num * y_den * z_jac
  let y_jac := y_num * x_den * (z_jac * z_jac)
  (x_jac, y_jac, z_jac)

/-- Big-endian 48-byte encoding of a base-field element (the source
writes the six 64-bit limbs of `into_repr()` in reverse order). -/
def fqToBytesBE (a : Fq) : List ℕ :=
  [a.val >>> 376 % 256, a.val >>> 368 % 256, a.val >>> 360 % 256, a.val >>> 352 % 256,
   a.val >>> 344 % 256, a.val >>> 336 % 256, a.val >>> 328 % 256, a.val >>> 320 % 256,
   a.val >>> 312 % 256, a.val >>> 304 % 256, a.val >>> 296 % 256, a.val >>> 288 % 256,
   a.val >>> 280 % 256, a.val >>> 272 % 256, a.val >>> 264 % 256, a.val >>> 256 % 256,
   a.val >>> 248 % 256, a.val >>> 240 % 256, a.val >>> 232 % 256, a.val >>> 224 % 256,
   a.val >>> 216 % 256, a.val >>> 208 % 256, a.val >>> 200 % 256, a.val >>> 192 % 256,
   a.val >>> 184 % 256, a.val >>> 176 % 256, a.val >>> 168 % 256, a.val >>> 160 % 256,
   a.val >>> 152 % 256, a.val >>> 144 % 256, a.val >>> 136 % 256, a.val >>> 128 % 256,
   a.val >>> 120 % 256, a.val >>> 112 % 256, a.val >>> 104 % 256, a.val >>> 96 % 256,
   a.val >>> 88 % 256, a.val >>> 80 % 256, a.val >>> 72 % 256, a.val >>> 64 % 256,
   a.val >>> 56 % 256, a.val >>> 48 % 256, a.val >>> 40 % 256, a.val >>> 32 % 256,
   a.val >>> 24 % 256, a.val >>> 16 % 256, a.val >>> 8 % 256, a.val >>> 0 % 256]

/-- The byte image written by `from_coordinates_unchecked` for `z ≠ 0`:
affine conversion by `z⁻¹`, then `x.c1, x.c0, y.c1, y.c0` big-endian into
the 192-byte `G2Uncompressed` buffer. -/
def from_coordinates_unchecked_bytes (x y z : Fq2) : List ℕ :=
  let z_inv := Fq2.inv0 z
  let z_inv2 := z_inv * z_inv
  let p_x := x * z_inv2
  let p_y := y * z_inv * z_inv2
  fqToBytesBE p_x.c1 ++ fqToBytesBE p_x.c0 ++ fqToBytesBE p_y.c1 ++ fqToBytesBE p_y.c0
/-- The test-vector domain-separation tag
`QUUX-V01-CS02-with-BLS12381G2_XMD:SHA-256_SSWU_RO_` as bytes. -/
def quuxDst : List ℕ := [81,85,85,88,45,86,48,49,45,67,83,48,50,45,119,105,116,104,45,66,76,83,49,50,51,56,49,71,50,95,88,77,68,58,83,72,65,45,50,53,54,95,83,83,87,85,95,82,79,95]


/-- The output of `expand_message_xmd` exactly as the specification
states it: `dst' = dst ‖ len(dst)`, `b0` the zero-padded seeded hash,
`b1 = H(b0 ‖ 0x01 ‖ dst')`, `b_i = H(strxor(b0, b_(i-1)) ‖ byte i ‖ dst')`
for `i = 2..8`, output `b1 ‖ … ‖ b8`. -/
def xmdSpecBlocks (msg dst : List ℕ) : List (List ℕ) :=
  let dstPrime := dst ++ [dst.length]
  let b0 := sha256 (List.replicate 64 0 ++ msg ++ [1, 0] ++ [0] ++ dstPrime)
  let b1 := sha256 (b0 ++ [1] ++ dstPrime)
  let b2 := sha256 (strxor b0 b1 ++ [2] ++ dstPrime)
  let b3 := sha256 (strxor b0 b2 ++ [3] ++ dstPrime)
  let b4 := sha256 (strxor b0 b3 ++ [4] ++ dstPrime)
  let b5 := sha256 (strxor b0 b4 ++ [5] ++ dstPrime)
  let b6 := sha256 (strxor b0 b5 ++ [6] ++ dstPrime)
  let b7 := sha256 (strxor b0 b6 ++ [7] ++ dstPrime)
  let b8 := sha256 (strxor b0 b7 ++ [8] ++ dstPrime)
  [b1, b2, b3, b4, b5, b6, b7, b8]

theorem sha256_length (msg : List ℕ) : (sha256 msg).length = 32 := by
  simp [sha256, wordBytesBE]

/-- C9: the 15-entry array computed by the squaring-and-multiplication
chain at the start of `iso_map` is exactly the consecutive even powers
`Z², Z⁴, …, Z³⁰` (entry `i` is `Z^(2(i+1))`). -/
theorem zPow2i_spec (z : Fq2) :
    zPow2i z = (List.range 15).map (fun i => z ^ (2 * (i + 1))) := by
  have hr : List.range 15 = [0, 1, 2, 3, 4, 5, 6, 7, 8, 9, 10, 11, 12, 13, 14] := by decide
  rw [hr]
  simp only [zPow2i, List.map_cons, List.map_nil, List.cons.injEq, and_true]
  norm_num
  and_intros <;> ring

/-- C5: `expand_message_xmd` succeeds exactly when the domain-separation
tag is at most 255 bytes; a longer tag yields the failure value (the
length test precedes all hashing in the definition, and the tag is never
truncated). -/
theorem expand_message_xmd_dst_bound (msg dst : List ℕ) :
    (expand_message_xmd msg dst).isSome = true ↔ dst.length ≤ 255 := by
  by_cases h : dst.length ≤ 255 <;> simp [expand_message_xmd, h]

/-- C8: for any message and any DST of at most 255 bytes,
`expand_message_xmd` returns exactly the specification's blocks
`b1, …, b8`, 256 bytes in total. -/
theorem expand_message_xmd_spec (msg dst : List ℕ) (h : dst.length ≤ 255) :
    expand_message_xmd msg dst = some (xmdSpecBlocks msg dst) ∧
      (xmdSpecBlocks msg dst).join.length = 256 := by
  constructor
  · simp only [expand_message_xmd]
    rw [if_pos h]
    rfl
  · simp [xmdSpecBlocks, sha256_length]

/-- C8 witness at concrete inputs. -/
theorem expand_message_xmd_spec_witness :
    expand_message_xmd [] [] = some (xmdSpecBlocks [] []) ∧
      (xmdSpecBlocks [] []).join.length = 256 :=
  expand_message_xmd_spec [] [] (by decide)

/-- C3: on the empty message with the `QUUX…RO_` tag, `hash_to_field_fq2`
produces the published `u0` reference values. -/
theorem hash_to_field_fq2_vector_u0 :
    (hash_to_field_fq2 [] quuxDst).map (fun q => q.1) =
    some ⟨(593868448310005448561172252387029516360409945786457439875974315031640021389835649561235021338510064922970633805048 : Fq),
          (867375309489067512797459860887365951877054038763818448057326190302701649888849997836339069389536967202878289851290 : Fq)⟩ := by
  decide

/-- C7: `sgn0` returns only `0` or `1`, and agrees on `y` and `-y`
exactly when `y = -y`; the sign-fixing step therefore always makes a
definite choice between the two square roots. -/
theorem sgn0_wellDefined (y : Fq2) :
    (sgn0 y = 0 ∨ sgn0 y = 1) ∧ (sgn0 y = sgn0 (-y) ↔ y = -y) := by
  have hodd : blsP % 2 = 1 := by norm_num [blsP]
  have hrange : ∀ x : Fq2, sgn0 x = 0 ∨ sgn0 x = 1 := by
    intro x
    unfold sgn0
    rcases Nat.mod_two_eq_zero_or_one x.c0.val with h0 | h0 <;>
      rcases Nat.mod_two_eq_zero_or_one x.c1.val with h1 | h1 <;>
        rw [h0, h1] <;> split_ifs <;> simp
  refine ⟨hrange y, ?_, fun h => by rw [← h]⟩
  intro h
  by_contra hne
  have hy0 : y ≠ 0 := by
    rintro rfl
    exact hne (by rw [neg_zero])
  have hc0n : (-y).c0 = -y.c0 := rfl
  have hc1n : (-y).c1 = -y.c1 := rfl
  by_cases hc0 : y.c0 = 0
  · have hc1 : y.c1 ≠ 0 := by
      intro hc1
      exact hy0 (Fq2.ext_c hc0 hc1)
    have hv : y.c1.val ≠ 0 := fun hv => hc1 (by rwa [← ZMod.val_eq_zero])
    have hvlt : y.c1.val < blsP := ZMod.val_lt y.c1
    have hnegv : (-y.c1).val = blsP - y.c1.val := by
      rw [ZMod.neg_val, if_neg hc1]
    have hs1 : sgn0 y = y.c1.val % 2 := by
      unfold sgn0
      rw [hc0]
      simp
    have hs2 : sgn0 (-y) = (blsP - y.c1.val) % 2 := by
      unfold sgn0
      rw [hc0n, hc1n, hc0, hnegv]
      simp
    rw [hs1, hs2] at h
    omega
  · have hv : y.c0.val ≠ 0 := fun hv => hc0 (by rwa [← ZMod.val_eq_zero])
    have hvlt : y.c0.val < blsP := ZMod.val_lt y.c0
    have hnegv : (-y.c0).val = blsP - y.c0.val := by
      rw [ZMod.neg_val, if_neg hc0]
    have hc0n' : (-y).c0 ≠ 0 := by
      rw [hc0n]
      simpa using hc0
    have hs1 : sgn0 y = y.c0.val % 2 := by
      unfold sgn0
      rw [if_neg hc0]
      simp
    have hs2 : sgn0 (-y) = (blsP - y.c0.val) % 2 := by
      unfold sgn0
      rw [if_neg hc0n', hc0n, hnegv]
      simp
    rw [hs1, hs2] at h
    omega

/-- C4 counterexample: at `x = 0`, `y = 0`, `Z = 2`, `iso_map` does NOT
equal the combination the claim states (with `y_den' = Z·y_den` for the
Horner value `y_den` of `K4`): the code multiplies the `K4` Horner value
by `Z²·Z`, not by `Z`. -/
theorem iso_map_claim_counterexample :
    ¬ (iso_map 0 0 ⟨2, 0⟩ =
      (horner K1 (zPow2i ⟨2, 0⟩) 0 * ((⟨2, 0⟩ : Fq2) * horner K4 (zPow2i ⟨2, 0⟩) 0)
          * ((⟨2, 0⟩ : Fq2) ^ 2 * horner K2 (zPow2i ⟨2, 0⟩) 0
            * ((⟨2, 0⟩ : Fq2) * horner K4 (zPow2i ⟨2, 0⟩) 0)),
       (0 : Fq2) * horner K3 (zPow2i ⟨2, 0⟩) 0 * ((⟨2, 0⟩ : Fq2) ^ 2 * horner K2 (zPow2i ⟨2, 0⟩) 0)
          * ((⟨2, 0⟩ : Fq2) ^ 2 * horner K2 (zPow2i ⟨2, 0⟩) 0
            * ((⟨2, 0⟩ : Fq2) * horner K4 (zPow2i ⟨2, 0⟩) 0)) ^ 2,
       (⟨2, 0⟩ : Fq2) ^ 2 * horner K2 (zPow2i ⟨2, 0⟩) 0
          * ((⟨2, 0⟩ : Fq2) * horner K4 (zPow2i ⟨2, 0⟩) 0))) := by
  decide

/-- The combination structure of `iso_map`, as a reusable lemma. -/
theorem iso_map_eq (x y z : Fq2) :
    iso_map x y z =
      (horner K1 (zPow2i z) x * (z ^ 2 * z * horner K4 (zPow2i z) x)
          * (z ^ 2 * horner K2 (zPow2i z) x * (z ^ 2 * z * horner K4 (zPow2i z) x)),
       y * horner K3 (zPow2i z) x * (z ^ 2 * horner K2 (zPow2i z) x)
          * (z ^ 2 * horner K2 (zPow2i z) x * (z ^ 2 * z * horner K4 (zPow2i z) x)) ^ 2,
       z ^ 2 * horner K2 (zPow2i z) x * (z ^ 2 * z * horner K4 (zPow2i z) x)) := by
  have h0 : (zPow2i z).getD 0 0 = z ^ 2 := by
    rw [pow_two]
    rfl
  simp only [iso_map, h0]
  refine Prod.ext ?_ (Prod.ext ?_ ?_) <;> simp only [] <;> ring

/-- C4 amended: `iso_map` combines the Horner values with
`x_den' = Z²·x_den`, `y_num' = y·y_num`, and `y_den' = Z²·Z·y_den`
(not `Z·y_den`), and outputs `Z_out = x_den'·y_den'`,
`X_out = x_num·y_den'·Z_out`, `Y_out = y_num'·x_den'·Z_out²`. -/
theorem iso_map_combination (x y z : Fq2) :
    iso_map x y z =
      (horner K1 (zPow2i z) x * (z ^ 2 * z * horner K4 (zPow2i z) x)
          * (z ^ 2 * horner K2 (zPow2i z) x * (z ^ 2 * z * horner K4 (zPow2i z) x)),
       y * horner K3 (zPow2i z) x * (z ^ 2 * horner K2 (zPow2i z) x)
          * (z ^ 2 * horner K2 (zPow2i z) x * (z ^ 2 * z * horner K4 (zPow2i z) x)) ^ 2,
       z ^ 2 * horner K2 (zPow2i z) x * (z ^ 2 * z * horner K4 (zPow2i z) x)) :=
  iso_map_eq x y z

/-- C10: for `Z ≠ 0` the byte image produced by
`from_coordinates_unchecked` exactly fills the 192-byte uncompressed
buffer, and its leading byte is at most `26 < 2^5`, so none of the three
format/flag bits is set and the final unchecked decode cannot fail. -/
theorem from_coordinates_unchecked_safe (x y z : Fq2) (h : z ≠ 0) :
    (from_coordinates_unchecked_bytes x y z).length = 192 ∧
    (from_coordinates_unchecked_bytes x y z).headD 0 ≤ 26 ∧
    (from_coordinates_unchecked_bytes x y z).headD 0 < 32 := by
  refine ⟨?_, ?_, ?_⟩
  · simp [from_coordinates_unchecked_bytes, fqToBytesBE]
  all_goals {
    have hhead : (from_coordinates_unchecked_bytes x y z).headD 0 =
        (x * (Fq2.inv0 z * Fq2.inv0 z)).c1.val >>> 376 % 256 := rfl
    have hlt : (x * (Fq2.inv0 z * Fq2.inv0 z)).c1.val < blsP :=
      ZMod.val_lt _
    have hdiv : (x * (Fq2.inv0 z * Fq2.inv0 z)).c1.val >>> 376 ≤ 26 := by
      rw [Nat.shiftRight_eq_div_pow]
      have h26 : (blsP - 1) / 2 ^ 376 = 26 := by norm_num [blsP]
      calc (x * (Fq2.inv0 z * Fq2.inv0 z)).c1.val / 2 ^ 376
          ≤ (blsP - 1) / 2 ^ 376 := Nat.div_le_div_right (by omega)
        _ = 26 := h26
    have hle : (from_coordinates_unchecked_bytes x y z).headD 0 ≤ 26 := by
      rw [hhead]
      exact le_trans (Nat.mod_le _ _) hdiv
    omega
  }

/-- C10 witness at a concrete nonzero `Z`. -/
theorem from_coordinates_unchecked_safe_witness :
    (from_coordinates_unchecked_bytes 1 1 ⟨1, 0⟩).length = 192 ∧
    (from_coordinates_unchecked_bytes 1 1 ⟨1, 0⟩).headD 0 ≤ 26 ∧
    (from_coordinates_unchecked_bytes 1 1 ⟨1, 0⟩).headD 0 < 32 :=
  from_coordinates_unchecked_safe 1 1 ⟨1, 0⟩ (by decide)

theorem Fq2.inv0_eq_zero_iff (x : Fq2) : Fq2.inv0 x = 0 ↔ x = 0 := by
  constructor
  · intro h
    by_contra hx
    have h1 := Fq2.mul_inv0_cancel hx
    rw [h, mul_zero] at h1
    exact one_ne_zero h1.symm
  · rintro rfl
    show Fq2.inv0 0 = 0
    unfold Fq2.inv0
    apply Fq2.ext_c <;> simp [Fq2.zero_def, fqInv_eq]

theorem sswuZc_not_square : ¬ IsSquare sswuZc := by
  have hz : sswuZc ≠ 0 := by decide
  have hnorm : Fq2.normF sswuZc = (5 : Fq) := by decide
  rw [fq2_isSquare_iff_norm hz, hnorm]
  exact five_not_square_fq

/-- C2: the `y²` candidate selected in the SSWU branch step is a
quadratic residue for every extension-field input, so the subsequent
square root always exists and the panicking branch of the source is
unreachable. -/
theorem sswu_selected_y2_square (u : Fq2) : IsSquare (sswuCand u).2 := by
  unfold sswuCand
  by_cases hsq : isSquareFq2 (sswuGx1 u)
  · rw [if_pos hsq]
    exact (isSquareFq2_iff _).mp hsq
  · rw [if_neg hsq]
    have hgx1 : ¬ IsSquare (sswuGx1 u) := fun hs => hsq ((isSquareFq2_iff _).mpr hs)
    rcases nonsquare_mul_nonsquare hgx1 sswuZc_not_square with ⟨r, hr⟩
    show IsSquare (sswuGx2 u)
    refine ⟨r * (sswuZc * (u * u * u)), ?_⟩
    unfold sswuGx2 sswuTv2 sswuTv1
    linear_combination (sswuZc ^ 2 * u ^ 6) * hr

/-- Polynomial addition on ascending coefficient lists. -/
def polyAdd : List Fq2 → List Fq2 → List Fq2
  | [], q => q
  | p, [] => p
  | a :: p, b :: q => (a + b) :: polyAdd p q

/-- Scalar multiple of a coefficient list. -/
def polyScale (c : Fq2) (p : List Fq2) : List Fq2 := p.map (fun a => c * a)

/-- Polynomial product on ascending coefficient lists. -/
def polyMul : List Fq2 → List Fq2 → List Fq2
  | [], _q => []
  | a :: p, q => polyAdd (polyScale a q) (0 :: polyMul p q)

/-- Evaluation of an ascending coefficient list. -/
def polyEval (p : List Fq2) (x : Fq2) : Fq2 :=
  p.foldr (fun c acc => c + x * acc) 0

theorem polyEval_nil (x : Fq2) : polyEval [] x = 0 := rfl

theorem polyEval_cons (a : Fq2) (p : List Fq2) (x : Fq2) :
    polyEval (a :: p) x = a + x * polyEval p x := rfl

theorem polyEval_add : ∀ (p q : List Fq2) (x : Fq2),
    polyEval (polyAdd p q) x = polyEval p x + polyEval q x := by
  intro p
  induction p with
  | nil => intro q x; simp [polyAdd, polyEval_nil]
  | cons a p ih =>
    intro q x
    cases q with
    | nil => simp [polyAdd, polyEval_nil]
    | cons b q =>
      show polyEval ((a + b) :: polyAdd p q) x = _
      rw [polyEval_cons, polyEval_cons, polyEval_cons, ih]
      ring

theorem polyEval_scale (c : Fq2) : ∀ (p : List Fq2) (x : Fq2),
    polyEval (polyScale c p) x = c * polyEval p x := by
  intro p
  induction p with
  | nil => intro x; simp [polyScale, polyEval_nil]
  | cons a p ih =>
    intro x
    show polyEval ((c * a) :: polyScale c p) x = _
    rw [polyEval_cons, polyEval_cons, ih]
    ring

theorem polyEval_mul : ∀ (p q : List Fq2) (x : Fq2),
    polyEval (polyMul p q) x = polyEval p x * polyEval q x := by
  intro p
  induction p with
  | nil => intro q x; simp [polyMul, polyEval_nil]
  | cons a p ih =>
    intro q x
    show polyEval (polyAdd (polyScale a q) (0 :: polyMul p q)) x = _
    rw [polyEval_add, polyEval_scale, polyEval_cons, ih, polyEval_cons]
    ring

/-- Ascending coefficient list of the isogeny x-numerator. -/
def k1Coeffs : List Fq2 := K1.map fq2FromU64s

/-- Ascending coefficient list of the isogeny x-denominator. -/
def k2Coeffs : List Fq2 := K2.map fq2FromU64s

/-- Ascending coefficient list of the isogeny y-numerator. -/
def k3Coeffs : List Fq2 := K3.map fq2FromU64s

/-- Ascending coefficient list of the isogeny y-denominator. -/
def k4Coeffs : List Fq2 := K4.map fq2FromU64s

/-- The auxiliary-curve right-hand side `x³ + A·x + B` as a coefficient
list. -/
def gPoly : List Fq2 := [sswuB, sswuA, 0, 1]

/-- The algebraic heart of the 3-isogeny correctness: as polynomials,
`g·K3²·K2³ = (K1³ + (4+4i)·K2³)·K4²`, so a point of the auxiliary curve
maps to a point of the target curve `y² = x³ + 4(1+i)`. -/
theorem iso_poly_identity :
    polyMul (polyMul gPoly (polyMul k3Coeffs k3Coeffs))
      (polyMul k2Coeffs (polyMul k2Coeffs k2Coeffs)) =
    polyMul (polyAdd (polyMul k1Coeffs (polyMul k1Coeffs k1Coeffs))
      (polyScale ⟨4, 4⟩ (polyMul k2Coeffs (polyMul k2Coeffs k2Coeffs))))
      (polyMul k4Coeffs k4Coeffs) := by
  decide

theorem zPow2i_one : zPow2i 1 = [1, 1, 1, 1, 1, 1, 1, 1, 1, 1, 1, 1, 1, 1, 1] := by
  decide


theorem horner_one_K1 (x : Fq2) :
    horner K1 [1, 1, 1, 1, 1, 1, 1, 1, 1, 1, 1, 1, 1, 1, 1] x = polyEval k1Coeffs x := by
  simp only [horner, K1, k1Coeffs, List.reverse_cons, List.reverse_nil, List.nil_append,
    List.cons_append, List.zip_cons_cons, List.zip_nil_left, List.foldl_cons, List.foldl_nil,
    List.map_cons, List.map_nil, polyEval, List.foldr_cons, List.foldr_nil]
  ring

theorem horner_one_K2 (x : Fq2) :
    horner K2 [1, 1, 1, 1, 1, 1, 1, 1, 1, 1, 1, 1, 1, 1, 1] x = polyEval k2Coeffs x := by
  simp only [horner, K2, k2Coeffs, List.reverse_cons, List.reverse_nil, List.nil_append,
    List.cons_append, List.zip_cons_cons, List.zip_nil_left, List.foldl_cons, List.foldl_nil,
    List.map_cons, List.map_nil, polyEval, List.foldr_cons, List.foldr_nil]
  ring

theorem horner_one_K3 (x : Fq2) :
    horner K3 [1, 1, 1, 1, 1, 1, 1, 1, 1, 1, 1, 1, 1, 1, 1] x = polyEval k3Coeffs x := by
  simp only [horner, K3, k3Coeffs, List.reverse_cons, List.reverse_nil, List.nil_append,
    List.cons_append, List.zip_cons_cons, List.zip_nil_left, List.foldl_cons, List.foldl_nil,
    List.map_cons, List.map_nil, polyEval, List.foldr_cons, List.foldr_nil]
  ring

theorem horner_one_K4 (x : Fq2) :
    horner K4 [1, 1, 1, 1, 1, 1, 1, 1, 1, 1, 1, 1, 1, 1, 1] x = polyEval k4Coeffs x := by
  simp only [horner, K4, k4Coeffs, List.reverse_cons, List.reverse_nil, List.nil_append,
    List.cons_append, List.zip_cons_cons, List.zip_nil_left, List.foldl_cons, List.foldl_nil,
    List.map_cons, List.map_nil, polyEval, List.foldr_cons, List.foldr_nil]
  ring

/-- The selected SSWU candidate always satisfies the auxiliary-curve
relation `y² = x³ + A·x + B`. -/
theorem sswu_cand_on_curve (u : Fq2) :
    (sswuCand u).2 = (sswuCand u).1 * (sswuCand u).1 * (sswuCand u).1
      + sswuA * (sswuCand u).1 + sswuB := by
  unfold sswuCand
  by_cases hsq : isSquareFq2 (sswuGx1 u)
  · rw [if_pos hsq]
    show sswuGx1 u = _
    unfold sswuGx1
    ring
  · rw [if_neg hsq]
    show sswuGx2 u = sswuX2 u * sswuX2 u * sswuX2 u + sswuA * sswuX2 u + sswuB
    by_cases he1 : Fq2.inv0 (sswuTv1 u + sswuTv2 u) = 0
    · exfalso
      have hx1 : sswuX1 u = sswuC2 * sswuC1 := by
        unfold sswuX1
        rw [if_pos he1]
      have hgx1 : sswuGx1 u =
          (sswuC2 * sswuC1 * (sswuC2 * sswuC1) + sswuA) * (sswuC2 * sswuC1) + sswuB := by
        unfold sswuGx1
        rw [hx1]
      have hsq' : isSquareFq2
          ((sswuC2 * sswuC1 * (sswuC2 * sswuC1) + sswuA) * (sswuC2 * sswuC1) + sswuB) = true := by
        decide
      rw [hgx1] at hsq
      exact hsq hsq'
    · have htv2 : sswuTv2 u = sswuTv1 u * sswuTv1 u := rfl
      have hs : sswuTv1 u + sswuTv1 u * sswuTv1 u ≠ 0 := by
        rw [← htv2]
        exact fun h => he1 ((Fq2.inv0_eq_zero_iff _).mpr h)
      have hx1 : sswuX1 u = ((sswuTv1 u + sswuTv1 u * sswuTv1 u)⁻¹ + 1) * sswuC1 := by
        unfold sswuX1
        rw [if_neg he1, htv2, ← Fq2.inv_def]
      have hA : sswuA ≠ 0 := by decide
      have hc1 : sswuC1 = -(sswuA⁻¹ * sswuB) := rfl
      have hx1m : sswuX1 u * ((sswuTv1 u + sswuTv1 u * sswuTv1 u) * sswuA)
          = -((1 + (sswuTv1 u + sswuTv1 u * sswuTv1 u)) * sswuB) := by
        rw [hx1, hc1]
        linear_combination (-(sswuA⁻¹ * sswuB * sswuA)) * mul_inv_cancel₀ hs
          + (-((1 + (sswuTv1 u + sswuTv1 u * sswuTv1 u)) * sswuB)) * mul_inv_cancel₀ hA
      have key : (((sswuX1 u * sswuX1 u + sswuA) * sswuX1 u + sswuB)
            * (sswuTv1 u * (sswuTv1 u * sswuTv1 u))
          - ((sswuTv1 u * sswuX1 u) * (sswuTv1 u * sswuX1 u) * (sswuTv1 u * sswuX1 u)
             + sswuA * (sswuTv1 u * sswuX1 u) + sswuB))
          * ((sswuTv1 u + sswuTv1 u * sswuTv1 u) * sswuA) = 0 := by
        linear_combination (sswuTv1 u * (sswuTv1 u * sswuTv1 u - 1) * sswuA) * hx1m
      have hzero := (mul_eq_zero.mp key).resolve_right (mul_ne_zero hs hA)
      have hmain := sub_eq_zero.mp hzero
      unfold sswuGx2 sswuX2 sswuGx1 sswuTv2
      linear_combination hmain

/-- Affine normalization of a Jacobian triple, as performed by
`from_coordinates_unchecked`: `x = X·(Z⁻¹)²`, `y = Y·Z⁻¹·(Z⁻¹)²`. -/
def jacToAffine (p : Fq2 × Fq2 × Fq2) : Fq2 × Fq2 :=
  let zi := Fq2.inv0 p.2.2
  (p.1 * (zi * zi), p.2.1 * zi * (zi * zi))

theorem iso_map_one (x y : Fq2) :
    iso_map x y 1 =
      (polyEval k1Coeffs x * polyEval k4Coeffs x * (polyEval k2Coeffs x * polyEval k4Coeffs x),
       y * polyEval k3Coeffs x * polyEval k2Coeffs x
         * (polyEval k2Coeffs x * polyEval k4Coeffs x) ^ 2,
       polyEval k2Coeffs x * polyEval k4Coeffs x) := by
  rw [iso_map_eq, zPow2i_one, horner_one_K1, horner_one_K2, horner_one_K3, horner_one_K4]
  refine Prod.ext ?_ (Prod.ext ?_ ?_) <;> simp only [] <;> ring

theorem polyEval_gPoly (x : Fq2) :
    polyEval gPoly x = x * x * x + sswuA * x + sswuB := by
  simp only [gPoly, polyEval, List.foldr_cons, List.foldr_nil]
  ring

set_option maxHeartbeats 3200000 in
/-- C6: the SSWU output satisfies the auxiliary-curve equation
`y² = x³ + A·x + B`, and for nonzero output `Z` the isogeny-mapped point,
normalized to affine coordinates, satisfies the target curve equation
`y² = x³ + 4(1+i)`. -/
theorem sswu_iso_map_curve_membership (u y0 : Fq2)
    (hy : y0 * y0 = (sswuCand u).2)
    (hz : (iso_map (sswuFinal u y0).1 (sswuFinal u y0).2 1).2.2 ≠ 0) :
    ((sswuFinal u y0).2 * (sswuFinal u y0).2 =
      (sswuFinal u y0).1 * (sswuFinal u y0).1 * (sswuFinal u y0).1
        + sswuA * (sswuFinal u y0).1 + sswuB) ∧
    ((jacToAffine (iso_map (sswuFinal u y0).1 (sswuFinal u y0).2 1)).2
        * (jacToAffine (iso_map (sswuFinal u y0).1 (sswuFinal u y0).2 1)).2
      = (jacToAffine (iso_map (sswuFinal u y0).1 (sswuFinal u y0).2 1)).1
        * (jacToAffine (iso_map (sswuFinal u y0).1 (sswuFinal u y0).2 1)).1
        * (jacToAffine (iso_map (sswuFinal u y0).1 (sswuFinal u y0).2 1)).1
        + (⟨4, 4⟩ : Fq2)) := by
  have hxf : (sswuFinal u y0).1 = (sswuCand u).1 := by
    simp only [sswuFinal]
  have hyy : (sswuFinal u y0).2 * (sswuFinal u y0).2 = y0 * y0 := by
    simp only [sswuFinal]
    split_ifs <;> ring
  have part1 : (sswuFinal u y0).2 * (sswuFinal u y0).2 =
      (sswuFinal u y0).1 * (sswuFinal u y0).1 * (sswuFinal u y0).1
        + sswuA * (sswuFinal u y0).1 + sswuB := by
    rw [hyy, hy, hxf]
    exact sswu_cand_on_curve u
  refine ⟨part1, ?_⟩
  rw [iso_map_one] at hz
  simp only [] at hz
  have he2 : polyEval k2Coeffs (sswuFinal u y0).1 ≠ 0 := (mul_ne_zero_iff.mp hz).1
  have he4 : polyEval k4Coeffs (sswuFinal u y0).1 ≠ 0 := (mul_ne_zero_iff.mp hz).2
  have hident := congrArg (fun p => polyEval p ((sswuFinal u y0).1)) iso_poly_identity
  simp only [polyEval_mul, polyEval_add, polyEval_scale, polyEval_gPoly] at hident
  rw [← part1] at hident
  rw [iso_map_one]
  unfold jacToAffine
  simp only []
  rw [← Fq2.inv_def]
  have hw : (polyEval k2Coeffs (sswuFinal u y0).1 * polyEval k4Coeffs (sswuFinal u y0).1)
      * (polyEval k2Coeffs (sswuFinal u y0).1 * polyEval k4Coeffs (sswuFinal u y0).1)⁻¹
      = 1 := mul_inv_cancel₀ (mul_ne_zero he2 he4)
  linear_combination
    (polyEval k2Coeffs (sswuFinal u y0).1 ^ 3 * polyEval k4Coeffs (sswuFinal u y0).1 ^ 4
      * ((polyEval k2Coeffs (sswuFinal u y0).1 * polyEval k4Coeffs (sswuFinal u y0).1)⁻¹) ^ 6)
        * hident
    + ((⟨4, 4⟩ : Fq2) * (((polyEval k2Coeffs (sswuFinal u y0).1
          * polyEval k4Coeffs (sswuFinal u y0).1)
        * (polyEval k2Coeffs (sswuFinal u y0).1 * polyEval k4Coeffs (sswuFinal u y0).1)⁻¹) ^ 5
      + ((polyEval k2Coeffs (sswuFinal u y0).1 * polyEval k4Coeffs (sswuFinal u y0).1)
        * (polyEval k2Coeffs (sswuFinal u y0).1 * polyEval k4Coeffs (sswuFinal u y0).1)⁻¹) ^ 4
      + ((polyEval k2Coeffs (sswuFinal u y0).1 * polyEval k4Coeffs (sswuFinal u y0).1)
        * (polyEval k2Coeffs (sswuFinal u y0).1 * polyEval k4Coeffs (sswuFinal u y0).1)⁻¹) ^ 3
      + ((polyEval k2Coeffs (sswuFinal u y0).1 * polyEval k4Coeffs (sswuFinal u y0).1)
        * (polyEval k2Coeffs (sswuFinal u y0).1 * polyEval k4Coeffs (sswuFinal u y0).1)⁻¹) ^ 2
      + ((polyEval k2Coeffs (sswuFinal u y0).1 * polyEval k4Coeffs (sswuFinal u y0).1)
        * (polyEval k2Coeffs (sswuFinal u y0).1 * polyEval k4Coeffs (sswuFinal u y0).1)⁻¹)
      + 1)) * hw

/-- C6 witness at the concrete input `u = 1` with an explicit square
root of the selected `y²`. -/
theorem sswu_iso_map_curve_membership_witness :
    ((sswuFinal ⟨1, 0⟩ ⟨483950511133246063278500667890425269817047677648651481553368849123043384491524467549724515390600657308756785679369, 3906985860187570787735561476856923467787148002658702404484402624719385166527484043253636273152595842569682378807146⟩).2
        * (sswuFinal ⟨1, 0⟩ ⟨483950511133246063278500667890425269817047677648651481553368849123043384491524467549724515390600657308756785679369, 3906985860187570787735561476856923467787148002658702404484402624719385166527484043253636273152595842569682378807146⟩).2 =
      (sswuFinal ⟨1, 0⟩ ⟨483950511133246063278500667890425269817047677648651481553368849123043384491524467549724515390600657308756785679369, 3906985860187570787735561476856923467787148002658702404484402624719385166527484043253636273152595842569682378807146⟩).1
        * (sswuFinal ⟨1, 0⟩ ⟨483950511133246063278500667890425269817047677648651481553368849123043384491524467549724515390600657308756785679369, 3906985860187570787735561476856923467787148002658702404484402624719385166527484043253636273152595842569682378807146⟩).1
        * (sswuFinal ⟨1, 0⟩ ⟨483950511133246063278500667890425269817047677648651481553368849123043384491524467549724515390600657308756785679369, 3906985860187570787735561476856923467787148002658702404484402624719385166527484043253636273152595842569682378807146⟩).1
        + sswuA * (sswuFinal ⟨1, 0⟩ ⟨483950511133246063278500667890425269817047677648651481553368849123043384491524467549724515390600657308756785679369, 3906985860187570787735561476856923467787148002658702404484402624719385166527484043253636273152595842569682378807146⟩).1 + sswuB) ∧
    ((jacToAffine (iso_map (sswuFinal ⟨1, 0⟩ ⟨483950511133246063278500667890425269817047677648651481553368849123043384491524467549724515390600657308756785679369, 3906985860187570787735561476856923467787148002658702404484402624719385166527484043253636273152595842569682378807146⟩).1 (sswuFinal ⟨1, 0⟩ ⟨483950511133246063278500667890425269817047677648651481553368849123043384491524467549724515390600657308756785679369, 3906985860187570787735561476856923467787148002658702404484402624719385166527484043253636273152595842569682378807146⟩).2 1)).2
        * (jacToAffine (iso_map (sswuFinal ⟨1, 0⟩ ⟨483950511133246063278500667890425269817047677648651481553368849123043384491524467549724515390600657308756785679369, 3906985860187570787735561476856923467787148002658702404484402624719385166527484043253636273152595842569682378807146⟩).1 (sswuFinal ⟨1, 0⟩ ⟨483950511133246063278500667890425269817047677648651481553368849123043384491524467549724515390600657308756785679369, 3906985860187570787735561476856923467787148002658702404484402624719385166527484043253636273152595842569682378807146⟩).2 1)).2
      = (jacToAffine (iso_map (sswuFinal ⟨1, 0⟩ ⟨483950511133246063278500667890425269817047677648651481553368849123043384491524467549724515390600657308756785679369, 3906985860187570787735561476856923467787148002658702404484402624719385166527484043253636273152595842569682378807146⟩).1 (sswuFinal ⟨1, 0⟩ ⟨483950511133246063278500667890425269817047677648651481553368849123043384491524467549724515390600657308756785679369, 3906985860187570787735561476856923467787148002658702404484402624719385166527484043253636273152595842569682378807146⟩).2 1)).1
        * (jacToAffine (iso_map (sswuFinal ⟨1, 0⟩ ⟨483950511133246063278500667890425269817047677648651481553368849123043384491524467549724515390600657308756785679369, 3906985860187570787735561476856923467787148002658702404484402624719385166527484043253636273152595842569682378807146⟩).1 (sswuFinal ⟨1, 0⟩ ⟨483950511133246063278500667890425269817047677648651481553368849123043384491524467549724515390600657308756785679369, 3906985860187570787735561476856923467787148002658702404484402624719385166527484043253636273152595842569682378807146⟩).2 1)).1
        * (jacToAffine (iso_map (sswuFinal ⟨1, 0⟩ ⟨483950511133246063278500667890425269817047677648651481553368849123043384491524467549724515390600657308756785679369, 3906985860187570787735561476856923467787148002658702404484402624719385166527484043253636273152595842569682378807146⟩).1 (sswuFinal ⟨1, 0⟩ ⟨483950511133246063278500667890425269817047677648651481553368849123043384491524467549724515390600657308756785679369, 3906985860187570787735561476856923467787148002658702404484402624719385166527484043253636273152595842569682378807146⟩).2 1)).1
        + (⟨4, 4⟩ : Fq2)) :=
  sswu_iso_map_curve_membership ⟨1, 0⟩
    ⟨483950511133246063278500667890425269817047677648651481553368849123043384491524467549724515390600657308756785679369, 3906985860187570787735561476856923467787148002658702404484402624719385166527484043253636273152595842569682378807146⟩
    (by decide) (by decide)
